import Mathlib

/-!
# weed-fs topology: data nodes and the topology root

A shallow embedding of `go/topology/data_node.go` and `go/topology/topology.go`.

The Go objects live on a heap and point at each other (`parent`, `children`), so
the embedding keeps a registry of nodes addressed by `NodeRef`; a Go pointer is a
`NodeRef` and `nil` is `none`.  Go maps are association lists read and written by
key.  Counters of Go type `int` are `Int`; volume ids are an unsigned machine
integer of `w` bits and wrap modulo `2 ^ w`.

Code that the two files call but that lives in other files of the repository
(the generic tree node, the volume layout, the sequencer, the configuration) is
either modelled from the specification, and marked so, or taken as a parameter.
-/

namespace Weedfs

/-! ## Go maps -/

/-- Reading `m[k]` with the comma-ok form: `none` when the key is absent. -/
def mapGet {κ α : Type} [DecidableEq κ] : List (κ × α) → κ → Option α
  | [], _ => none
  | (k', a) :: m, k => if k' = k then some a else mapGet m k

/-- The assignment `m[k] = a`: replaces the entry of `k`, or adds one. -/
def mapSet {κ α : Type} [DecidableEq κ] : List (κ × α) → κ → α → List (κ × α)
  | [], k, a => [(k, a)]
  | (k', a') :: m, k, a => if k' = k then (k, a) :: m else (k', a') :: mapSet m k a

/-! ## Data model -/

abbrev NodeId := String

/-- Address of a tree element in the registry (a Go pointer). -/
abbrev NodeRef := Nat

/-- Modelled from the spec: `storage.VolumeId`, whose declaration is not in the two
source files, is "an unsigned integer" with "a total order"; a value of a `w`-bit
unsigned type is a natural number below `2 ^ w`. -/
abbrev VolumeId := Nat

/-- Modelled from the spec: the "next" operation (increment) of a volume id,
missing from the source files; on a `w`-bit unsigned integer the increment wraps. -/
def VolumeId.Next (w : Nat) (vid : VolumeId) : VolumeId := (vid + 1) % 2 ^ w

/-- Modelled from the spec: `storage.ReplicationType`, "an enumerated value". -/
abbrev ReplicationType := Nat

/-- Modelled from the spec: `storage.VolumeInfo`, the volume descriptor "(volume id,
replication policy, reported used/total capacity)"; the source reads `Id` and
`RepType`. -/
structure VolumeInfo where
  Id : VolumeId
  Size : Nat
  RepType : ReplicationType
deriving DecidableEq

/-- Modelled from the spec: the struct `NodeImpl`, missing from the source files
(identity, node-type tag, parent, children and the four aggregate counters),
followed by the fields that `DataNode` adds to it in `data_node.go`; an element that
is not a storage node leaves those at their zero value. -/
structure Node where
  id : NodeId
  nodeType : String
  parent : Option NodeRef
  children : List (NodeId × NodeRef)
  volumeCount : Int
  activeVolumeCount : Int
  maxVolumeCount : Int
  maxVolumeId : VolumeId
  volumes : List (VolumeId × VolumeInfo)
  Ip : String
  Port : Int
  PublicUrl : String
  LastSeen : Int
  Dead : Bool
deriving DecidableEq

/-- The zero value of a tree element. -/
def Node.zero : Node :=
  { id := "", nodeType := "", parent := none, children := [], volumeCount := 0,
    activeVolumeCount := 0, maxVolumeCount := 0, maxVolumeId := 0, volumes := [],
    Ip := "", Port := 0, PublicUrl := "", LastSeen := 0, Dead := false }

/-- The registry of tree elements; `next` is the first address not yet handed out. -/
structure Heap where
  cell : NodeRef → Node
  next : NodeRef

def Heap.set (h : Heap) (r : NodeRef) (n : Node) : Heap :=
  { h with cell := fun j => if j = r then n else h.cell j }

/-! ## Node hierarchy: upward propagation -/

/-- Modelled from the spec: the recursion shared by the `UpAdjust` methods of
`NodeImpl`, missing from the source files: `f` updates the element, then the walk
"recurses to the parent until the root is reached".  The recursion follows `parent`
links, so it carries fuel: one unit per level. -/
def upAdjust (f : Node → Node) : Nat → Heap → NodeRef → Heap
  | 0, h, _ => h
  | fuel + 1, h, n =>
    let h1 := h.set n (f (h.cell n))
    match (h.cell n).parent with
    | none => h1
    | some p => upAdjust f fuel h1 p

/-- Modelled from the spec: `NodeImpl.UpAdjustVolumeCountDelta`, missing from the
source files: "`UpAdjustX(delta)` on any node updates that node's counter and
recurses to the parent until the root is reached". -/
def UpAdjustVolumeCountDelta (fuel : Nat) (h : Heap) (n : NodeRef) (delta : Int) : Heap :=
  upAdjust (fun x => { x with volumeCount := x.volumeCount + delta }) fuel h n

/-- Modelled from the spec: `NodeImpl.UpAdjustActiveVolumeCountDelta`, missing from
the source files; same propagation on the active volume count. -/
def UpAdjustActiveVolumeCountDelta (fuel : Nat) (h : Heap) (n : NodeRef) (delta : Int) : Heap :=
  upAdjust (fun x => { x with activeVolumeCount := x.activeVolumeCount + delta }) fuel h n

/-- Modelled from the spec: `NodeImpl.UpAdjustMaxVolumeId`, missing from the source
files: it "keeps the running maximum id seen anywhere in the tree", updating the
node and recursing to the parent until the root is reached. -/
def UpAdjustMaxVolumeId (fuel : Nat) (h : Heap) (n : NodeRef) (vid : VolumeId) : Heap :=
  upAdjust (fun x => { x with maxVolumeId := max x.maxVolumeId vid }) fuel h n

/-- The elements visited by an upward walk from `n`: `n`, its parent, and so on. -/
def pathToRoot : Nat → Heap → NodeRef → List NodeRef
  | 0, _, _ => []
  | fuel + 1, h, n =>
    n :: (match (h.cell n).parent with
          | none => []
          | some p => pathToRoot fuel h p)

/-! ## Storage node (`data_node.go`) -/

/-- The method `DataNode.AddOrUpdateVolume` of `data_node.go`. -/
def DataNode.AddOrUpdateVolume (fuel : Nat) (h : Heap) (dn : NodeRef) (v : VolumeInfo) : Heap :=
  if mapGet (h.cell dn).volumes v.Id = none then
    let h1 := h.set dn { h.cell dn with volumes := mapSet (h.cell dn).volumes v.Id v }
    let h2 := UpAdjustVolumeCountDelta fuel h1 dn 1
    let h3 := UpAdjustActiveVolumeCountDelta fuel h2 dn 1
    UpAdjustMaxVolumeId fuel h3 dn v.Id
  else
    h.set dn { h.cell dn with volumes := mapSet (h.cell dn).volumes v.Id v }

/-- The method `DataNode.MatchLocation` of `data_node.go`. -/
def DataNode.MatchLocation (h : Heap) (dn : NodeRef) (ip : String) (port : Int) : Bool :=
  decide ((h.cell dn).Ip = ip ∧ (h.cell dn).Port = port)

/-- The heap right after the map assignment `dn.volumes[v.Id] = v`. -/
def putVolume (h : Heap) (dn : NodeRef) (v : VolumeInfo) : Heap :=
  h.set dn { h.cell dn with volumes := mapSet (h.cell dn).volumes v.Id v }

/-- A storage node linked under a rack, a datacenter and the topology root. -/
def LinkedUnder (h : Heap) (dn rack dc topo : NodeRef) : Prop :=
  (h.cell dn).parent = some rack ∧ (h.cell rack).parent = some dc ∧
    (h.cell dc).parent = some topo ∧ (h.cell topo).parent = none

/-- A sequence of `AddOrUpdateVolume` calls on the same storage node. -/
def addAll (fuel : Nat) (h : Heap) (dn : NodeRef) (vs : List VolumeInfo) : Heap :=
  vs.foldl (fun s v => DataNode.AddOrUpdateVolume fuel s dn v) h

/-- A four-level tree for examples: topology 0, datacenter 1, rack 2, storage node 3. -/
def sampleTree : Heap :=
  { cell := fun j =>
      if j = 0 then { Node.zero with id := "topo", nodeType := "Topology", children := [("dc1", 1)] }
      else if j = 1 then
        { Node.zero with id := "dc1", nodeType := "DataCenter", parent := some 0,
                         children := [("rackA", 2)] }
      else if j = 2 then
        { Node.zero with id := "rackA", nodeType := "Rack", parent := some 1,
                         children := [("10.0.0.1:8080", 3)] }
      else if j = 3 then
        { Node.zero with id := "10.0.0.1:8080", nodeType := "DataNode", parent := some 2,
                         Ip := "10.0.0.1", Port := 8080 }
      else Node.zero
    next := 4 }

/-! ## Topology (`topology.go`) -/

/-- The struct `Topology` of `topology.go`: its embedded `NodeImpl` is the element
`self` of the registry; the other fields follow.  The volume layout, the sequencer
and the configuration are declared in other files of the repository and stay
abstract (`VL`, `Seq`, `Conf`); a slot of `replicaType2VolumeLayout` that is `nil`
is `none`.  The three channels carry no state read by the functions below. -/
structure Topology (VL Seq Conf : Type) where
  self : NodeRef
  replicaType2VolumeLayout : List (Option VL)
  pulse : Int
  volumeSizeLimit : Nat
  sequence : Seq
  configuration : Option Conf

/-- Modelled from the spec: the getter `NodeImpl.GetMaxVolumeId`, missing from the
source files: the "highest volume identifier seen" counter of the element. -/
def GetMaxVolumeId (h : Heap) (n : NodeRef) : VolumeId := (h.cell n).maxVolumeId

/-- Modelled from the spec: `NodeImpl.FreeSpace`, missing from the source files:
free capacity is "ceiling minus used", read from the aggregate counters. -/
def FreeSpace (h : Heap) (n : NodeRef) : Int := (h.cell n).maxVolumeCount - (h.cell n).volumeCount

/-- The method `Topology.NextVolumeId` of `topology.go`; `w` is the width in bits of
`storage.VolumeId`. -/
def Topology.NextVolumeId {VL Seq Conf : Type} (w : Nat) (h : Heap) (t : Topology VL Seq Conf) :
    VolumeId :=
  let vid := GetMaxVolumeId h t.self
  VolumeId.Next w vid

/-! ## Collaborators declared in other files of the repository -/

/-- Modelled from the spec: the four results of `VolumeLayout.PickForWrite`, whose
declaration is missing from the source files, as `Topology.PickForWrite` receives
them: `vid` is a pointer (the caller dereferences it), `datanodes` is the replica
set ("the ordered set of storage nodes currently hosting a replica") with its
`Length` and `Head`, `err` is `nil` on success. -/
structure LayoutPick where
  vid : Option VolumeId
  count : Int
  datanodes : List NodeRef
  err : Option String
deriving DecidableEq

/-- The operations that `topology.go` calls and that other files of the repository
define; they are parameters of the embedding.  Each type records what the spec
says the operation may touch: `vlLookup` is a "read-only" lookup, `vlRegisterVolume`
"adds `node` to the volume's replica set" (layout state only), the tree operations
work on the registry. -/
structure Env (VL Seq Conf : Type) where
  /-- The constant `storage.LengthRelicationType`. -/
  LengthRelicationType : Nat
  /-- The method `ReplicationType.GetReplicationLevelIndex`. -/
  GetReplicationLevelIndex : ReplicationType → Nat
  /-- The constructor `NewVolumeLayout(repType, volumeSizeLimit, pulse)`. -/
  NewVolumeLayout : ReplicationType → Nat → Int → VL
  /-- The method `VolumeLayout.PickForWrite(count, dataCenter)`. -/
  vlPickForWrite : VL → Int → String → LayoutPick × VL
  /-- The method `VolumeLayout.Lookup(vid)`; a `nil` slice is `none`. -/
  vlLookup : VL → VolumeId → Option (List NodeRef)
  /-- The method `VolumeLayout.RegisterVolume(v, dn)`. -/
  vlRegisterVolume : VL → Heap → VolumeInfo → NodeRef → VL
  /-- The constructor `sequence.NewSequencer(dirname, sequenceFilename)`. -/
  NewSequencer : String → String → Seq
  /-- The method `Sequencer.NextFileId(count)`: base id, granted count, new state. -/
  NextFileId : Seq → Int → (Nat × Int) × Seq
  /-- The text `storage.NewFileId(vid, key, salt).String()`. -/
  NewFileIdString : VolumeId → Nat → Nat → String
  /-- The call `ioutil.ReadFile(name)`: the bytes, or the error. -/
  ReadFile : String → Except String (List Nat)
  /-- The constructor `NewConfiguration(b)`: the configuration and the error. -/
  NewConfiguration : List Nat → Option Conf × Option String
  /-- The method `Configuration.Locate(ip, dcName, rackName)`. -/
  Locate : Option Conf → String → String → String → String × String
  /-- The method `DataCenter.GetOrCreateRack(rackName)`. -/
  GetOrCreateRack : Heap → NodeRef → String → Heap × NodeRef
  /-- The method `Rack.FindDataNode(ip, port)`. -/
  FindDataNode : Heap → NodeRef → String → Int → Option NodeRef
  /-- The method `Rack.GetOrCreateDataNode(ip, port, publicUrl, maxVolumeCount)`. -/
  GetOrCreateDataNode : Heap → NodeRef → String → Int → String → Int → Heap × NodeRef
  /-- The method `Topology.UnRegisterDataNode(dn)`. -/
  UnRegisterDataNode : Heap → Topology VL Seq Conf → NodeRef → Heap × Topology VL Seq Conf
  /-- The method `NodeImpl.ReserveOneVolume(r, vid, dataCenter)`. -/
  ReserveOneVolume : Heap → NodeRef → Int → VolumeId → String → (Bool × Option NodeRef) × Heap

/-- Modelled from the spec: the getter `NodeImpl.Children`, missing from the source
files: the "mapping from child-id to child" of the element. -/
def Children (h : Heap) (n : NodeRef) : List (NodeId × NodeRef) := (h.cell n).children

/-- Modelled from the spec: `NewDataCenter`, missing from the source files; like
`NewDataNode` of `data_node.go` it allocates an element, sets its id and its
node-type tag and starts with no children and zero counters. -/
def NewDataCenter (h : Heap) (id : String) : Heap × NodeRef :=
  ({ cell := fun j => if j = h.next then { Node.zero with id := id, nodeType := "DataCenter" }
                      else h.cell j
     next := h.next + 1 }, h.next)

/-- Modelled from the spec: `NodeImpl.LinkChildNode`, missing from the source files:
"`AddChild(child)` links and takes ownership": the child enters the mapping from
child-id to child and its parent reference is set.  (The children linked by
`topology.go` are new and have zero counters, so no counter moves.) -/
def LinkChildNode (h : Heap) (n : NodeRef) (c : NodeRef) : Heap :=
  let h1 := h.set n { h.cell n with children := mapSet (h.cell n).children (h.cell c).id c }
  h1.set c { h1.cell c with parent := some n }

/-- The loop of `Topology.GetOrCreateDataCenter`: `none` is the panic of the type
assertion `c.(*DataCenter)` on a child that is not a datacenter (the dynamic type
is read from the node-type tag), `some none` is falling out of the loop. -/
def findDataCenter (h : Heap) (dcName : String) : List (NodeId × NodeRef) → Option (Option NodeRef)
  | [] => some none
  | (_, c) :: rest =>
    if (h.cell c).nodeType = "DataCenter" then
      if (h.cell c).id = dcName then some (some c) else findDataCenter h dcName rest
    else none

/-- The method `Topology.GetOrCreateDataCenter` of `topology.go`; `none` is a panic. -/
def Topology.GetOrCreateDataCenter {VL Seq Conf : Type} (h : Heap) (t : Topology VL Seq Conf)
    (dcName : String) : Option (Heap × NodeRef) :=
  match findDataCenter h dcName (Children h t.self) with
  | none => none
  | some (some dc) => some (h, dc)
  | some none =>
    let (h1, dc) := NewDataCenter h dcName
    some (LinkChildNode h1 t.self dc, dc)

/-- A sequence of `GetOrCreateDataCenter` calls, in order. -/
def getOrCreateAll {VL Seq Conf : Type} (t : Topology VL Seq Conf) :
    Heap → List String → Option Heap
  | h, [] => some h
  | h, name :: names =>
    match t.GetOrCreateDataCenter h name with
    | none => none
    | some (h1, _) => getOrCreateAll t h1 names

/-- The ids of the children of an element, read from the children themselves. -/
def childIds (h : Heap) (n : NodeRef) : List NodeId :=
  (Children h n).map (fun e => (h.cell e.2).id)

/-- The topology element and its children are allocated, and every child is a
datacenter. -/
def TopologyChildrenOk (h : Heap) (n : NodeRef) : Prop :=
  n < h.next ∧ ∀ e ∈ Children h n, e.2 < h.next ∧ (h.cell e.2).nodeType = "DataCenter"

/-- The loop of `Topology.Lookup` over the layout slots. -/
def lookupSlots {VL : Type} (vlLookup : VL → VolumeId → Option (List NodeRef)) (vid : VolumeId) :
    List (Option VL) → Option (List NodeRef)
  | [] => none
  | none :: rest => lookupSlots vlLookup vid rest
  | some vl :: rest =>
    match vlLookup vl vid with
    | some list => some list
    | none => lookupSlots vlLookup vid rest

/-- The method `Topology.Lookup` of `topology.go`: the returned slice (`none` is
`nil`) and the topology after the call. -/
def Topology.Lookup {VL Seq Conf : Type} (env : Env VL Seq Conf) (t : Topology VL Seq Conf)
    (vid : VolumeId) : Option (List NodeRef) × Topology VL Seq Conf :=
  (lookupSlots env.vlLookup vid t.replicaType2VolumeLayout, t)

/-- The call `rand.Intn(n)` of the Go library on the raw draw `raw`: a value in
`[0, n)`, and a panic (`none`) when `n <= 0`. -/
def randIntn (raw : Nat) (n : Int) : Option Int :=
  if n ≤ 0 then none else some ((raw : Int) % n)

/-- The method `Topology.RandomlyReserveOneVolume` of `topology.go`: the three
results and the registry after the call; `none` is a panic. -/
def Topology.RandomlyReserveOneVolume {VL Seq Conf : Type} (env : Env VL Seq Conf) (w raw : Nat)
    (h : Heap) (t : Topology VL Seq Conf) (dataCenter : String) :
    Option ((Bool × Option NodeRef × Option VolumeId) × Heap) :=
  if FreeSpace h t.self ≤ 0 then
    some ((false, none, none), h)
  else
    let vid := t.NextVolumeId w h
    match randIntn raw (FreeSpace h t.self) with
    | none => none
    | some r =>
      let res := env.ReserveOneVolume h t.self r vid dataCenter
      some ((res.1.1, res.1.2, some vid), res.2)

/-- The four results of `Topology.PickForWrite`. -/
structure WriteTarget where
  fileId : String
  count : Int
  node : Option NodeRef
  err : Option String
deriving DecidableEq

/-- The layout slot of a replication type after the lazy creation at the top of
`Topology.PickForWrite` and of `Topology.GetVolumeLayout`; `none` is an index out of
range. -/
def Topology.slotOrNew {VL Seq Conf : Type} (env : Env VL Seq Conf) (t : Topology VL Seq Conf)
    (repType : ReplicationType) : Option VL :=
  match t.replicaType2VolumeLayout[env.GetReplicationLevelIndex repType]? with
  | none => none
  | some none => some (env.NewVolumeLayout repType t.volumeSizeLimit t.pulse)
  | some (some vl) => some vl

/-- The method `Topology.PickForWrite` of `topology.go`; `salt` is the draw
`rand.Uint32()`, `none` is a panic (index out of range, `nil` volume id). -/
def Topology.PickForWrite {VL Seq Conf : Type} (env : Env VL Seq Conf) (salt : Nat)
    (t : Topology VL Seq Conf) (repType : ReplicationType) (count : Int) (dataCenter : String) :
    Option (WriteTarget × Topology VL Seq Conf) :=
  let replicationTypeIndex := env.GetReplicationLevelIndex repType
  match t.slotOrNew env repType with
  | none => none
  | some vl =>
    let picked := env.vlPickForWrite vl count dataCenter
    let t1 := { t with replicaType2VolumeLayout :=
                  t.replicaType2VolumeLayout.set replicationTypeIndex (some picked.2) }
    let vid := picked.1.vid
    let count := picked.1.count
    let datanodes := picked.1.datanodes
    let err := picked.1.err
    if err ≠ none ∨ datanodes.length = 0 then
      some ({ fileId := "", count := 0, node := none,
              err := some "No writable volumes avalable!" }, t1)
    else
      let granted := env.NextFileId t1.sequence count
      match vid with
      | none => none
      | some vid =>
        some ({ fileId := env.NewFileIdString vid granted.1.1 salt, count := granted.1.2,
                node := datanodes.head?, err := none },
              { t1 with sequence := granted.2 })

/-- The method `Topology.GetVolumeLayout` of `topology.go`: the layout and the
topology after the lazy creation; `none` is an index out of range. -/
def Topology.GetVolumeLayout {VL Seq Conf : Type} (env : Env VL Seq Conf)
    (t : Topology VL Seq Conf) (repType : ReplicationType) :
    Option (VL × Topology VL Seq Conf) :=
  let replicationTypeIndex := env.GetReplicationLevelIndex repType
  match t.slotOrNew env repType with
  | none => none
  | some vl =>
    some (vl, { t with replicaType2VolumeLayout :=
                  t.replicaType2VolumeLayout.set replicationTypeIndex (some vl) })

/-- The method `Topology.RegisterVolumeLayout` of `topology.go`. -/
def Topology.RegisterVolumeLayout {VL Seq Conf : Type} (env : Env VL Seq Conf) (h : Heap)
    (t : Topology VL Seq Conf) (v : VolumeInfo) (dn : NodeRef) :
    Option (Topology VL Seq Conf) :=
  match t.GetVolumeLayout env v.RepType with
  | none => none
  | some (vl, t1) =>
    let registered := env.vlRegisterVolume vl h v dn
    let replicationTypeIndex := env.GetReplicationLevelIndex v.RepType
    some { t1 with replicaType2VolumeLayout :=
                     t1.replicaType2VolumeLayout.set replicationTypeIndex (some registered) }

/-- The loop at the end of `Topology.RegisterVolumes`. -/
def registerEach {VL Seq Conf : Type} (env : Env VL Seq Conf) (fuel : Nat) (dn : NodeRef) :
    Heap → Topology VL Seq Conf → List VolumeInfo → Option (Heap × Topology VL Seq Conf)
  | h, t, [] => some (h, t)
  | h, t, v :: rest =>
    let h1 := DataNode.AddOrUpdateVolume fuel h dn v
    match t.RegisterVolumeLayout env h1 v dn with
    | none => none
    | some t1 => registerEach env fuel dn h1 t1 rest

/-- The method `Topology.RegisterVolumes` of `topology.go`; `none` is a panic. -/
def Topology.RegisterVolumes {VL Seq Conf : Type} (env : Env VL Seq Conf) (fuel : Nat)
    (h : Heap) (t : Topology VL Seq Conf) (init : Bool) (volumeInfos : List VolumeInfo)
    (ip : String) (port : Int) (publicUrl : String) (maxVolumeCount : Int)
    (dcName rackName : String) : Option (Heap × Topology VL Seq Conf) :=
  let located := env.Locate t.configuration ip dcName rackName
  match t.GetOrCreateDataCenter h located.1 with
  | none => none
  | some (h1, dc) =>
    let racked := env.GetOrCreateRack h1 dc located.2
    let dn := env.FindDataNode racked.1 racked.2 ip port
    let cleared :=
      match init, dn with
      | true, some d => env.UnRegisterDataNode racked.1 t d
      | _, _ => (racked.1, t)
    let noded := env.GetOrCreateDataNode cleared.1 racked.2 ip port publicUrl maxVolumeCount
    registerEach env fuel noded.2 noded.1 cleared.2 volumeInfos

/-- The method `Topology.loadConfiguration` of `topology.go`: the topology after the
call and the returned error. -/
def Topology.loadConfiguration {VL Seq Conf : Type} (env : Env VL Seq Conf)
    (t : Topology VL Seq Conf) (configurationFile : String) :
    Topology VL Seq Conf × Option String :=
  match env.ReadFile configurationFile with
  | .ok b =>
    let made := env.NewConfiguration b
    ({ t with configuration := made.1 }, made.2)
  | .error _ => (t, none)

/-- The function `NewTopology` of `topology.go`: the registry with the new root
element, the topology and the returned error. -/
def NewTopology {VL Seq Conf : Type} (env : Env VL Seq Conf) (h : Heap) (id confFile dirname
    sequenceFilename : String) (volumeSizeLimit : Nat) (pulse : Int) :
    (Heap × Topology VL Seq Conf) × Option String :=
  let h1 : Heap :=
    { cell := fun j => if j = h.next then { Node.zero with id := id, nodeType := "Topology" }
                       else h.cell j
      next := h.next + 1 }
  let t : Topology VL Seq Conf :=
    { self := h.next
      replicaType2VolumeLayout := List.replicate env.LengthRelicationType none
      pulse := pulse
      volumeSizeLimit := volumeSizeLimit
      sequence := env.NewSequencer dirname sequenceFilename
      configuration := none }
  let loaded := t.loadConfiguration env confFile
  ((h1, loaded.1), loaded.2)

/-- What the layout of the replication type returns to `Topology.PickForWrite`;
`none` when the slot index is out of range. -/
def Topology.layoutPick {VL Seq Conf : Type} (env : Env VL Seq Conf) (t : Topology VL Seq Conf)
    (repType : ReplicationType) (count : Int) (dataCenter : String) : Option LayoutPick :=
  match t.slotOrNew env repType with
  | none => none
  | some vl => some (env.vlPickForWrite vl count dataCenter).1

/-- A small instance of the collaborators for examples: a layout is a map from
volume id to replica set and offers its first volume, the sequencer is a counter,
the replication type is its own slot index. -/
def sampleEnv : Env (List (VolumeId × List NodeRef)) Nat Unit :=
  { LengthRelicationType := 3
    GetReplicationLevelIndex := fun r => r
    NewVolumeLayout := fun _ _ _ => []
    vlPickForWrite := fun vl count _ =>
      match vl with
      | [] => ({ vid := none, count := 0, datanodes := [],
                 err := some "No more writable volumes!" }, vl)
      | (vid, nodes) :: _ => ({ vid := some vid, count := count, datanodes := nodes,
                                err := none }, vl)
    vlLookup := fun vl vid => mapGet vl vid
    vlRegisterVolume := fun vl _ v dn =>
      mapSet vl v.Id
        (if dn ∈ (mapGet vl v.Id).getD [] then (mapGet vl v.Id).getD []
         else dn :: (mapGet vl v.Id).getD [])
    NewSequencer := fun _ _ => 0
    NextFileId := fun s count => ((s, count), s + count.toNat)
    NewFileIdString := fun vid key salt => String.join [vid.repr, ",", key.repr, ",", salt.repr]
    ReadFile := fun name => if name = "conf.xml" then .ok [60, 62] else .error "no such file"
    NewConfiguration := fun b => if b = [60, 62] then (some (), none) else (none, some "bad")
    Locate := fun _ _ dcName rackName => (dcName, rackName)
    GetOrCreateRack := fun h _ _ => (h, 2)
    FindDataNode := fun h rack ip port =>
      ((Children h rack).find? (fun e => DataNode.MatchLocation h e.2 ip port)).map Prod.snd
    GetOrCreateDataNode := fun h _ _ _ _ _ => (h, 3)
    UnRegisterDataNode := fun h t _ => (h, t)
    ReserveOneVolume := fun h _ _ _ _ => ((true, some 3), h) }

/-- The sample collaborators with a layout that grants two identifiers more than
asked ("adjusted by internal batching"). -/
def batchingEnv : Env (List (VolumeId × List NodeRef)) Nat Unit :=
  { sampleEnv with
    vlPickForWrite := fun vl count _ =>
      match vl with
      | [] => ({ vid := none, count := 0, datanodes := [],
                 err := some "No more writable volumes!" }, vl)
      | (vid, nodes) :: _ => ({ vid := some vid, count := count + 2, datanodes := nodes,
                                err := none }, vl) }

/-- A topology over the sample tree whose first layout holds volume 5 on node 3. -/
def sampleWritable : Topology (List (VolumeId × List NodeRef)) Nat Unit :=
  { self := 0, replicaType2VolumeLayout := [some [(5, [3])], none, none], pulse := 5,
    volumeSizeLimit := 1024, sequence := 0, configuration := none }

/-- A topology over the sample tree in which no layout was created yet. -/
def sampleUnwritable : Topology (List (VolumeId × List NodeRef)) Nat Unit :=
  { self := 0, replicaType2VolumeLayout := [none, none, none], pulse := 5,
    volumeSizeLimit := 1024, sequence := 0, configuration := none }

/-- The last descriptor of a report list that carries the volume id `i`. -/
def lastReport (vs : List VolumeInfo) (i : VolumeId) : Option VolumeInfo :=
  vs.reverse.find? (fun x => decide (x.Id = i))

/-- The element without parent at which the upward walk from `n` ends; `none` when
the fuel runs out before it is reached. -/
def rootOf : Nat → Heap → NodeRef → Option NodeRef
  | 0, _, _ => none
  | fuel + 1, h, n =>
    match (h.cell n).parent with
    | none => some n
    | some p => rootOf fuel h p

/-- The layout slots after one report was mirrored, in the spec's words: the
descriptor is registered, with the node, in the layout of its replication policy,
which is created first when its slot is still empty. -/
def registerSlot {VL Seq Conf : Type} (env : Env VL Seq Conf) (volumeSizeLimit : Nat)
    (pulse : Int) (h : Heap) (dn : NodeRef) (slots : List (Option VL)) (v : VolumeInfo) :
    List (Option VL) :=
  let i := env.GetReplicationLevelIndex v.RepType
  let vl :=
    match slots[i]? with
    | some (some vl) => vl
    | _ => env.NewVolumeLayout v.RepType volumeSizeLimit pulse
  slots.set i (some (env.vlRegisterVolume vl h v dn))

/-- The layout slots after a list of reports, in the spec's words: "every reported
volume is then applied via `AddOrUpdateVolume` and mirrored into the matching Volume
Layout", one report after the other. -/
def mirrorReports {VL Seq Conf : Type} (env : Env VL Seq Conf) (fuel : Nat) (dn : NodeRef)
    (volumeSizeLimit : Nat) (pulse : Int) :
    Heap → List (Option VL) → List VolumeInfo → List (Option VL)
  | _, slots, [] => slots
  | h, slots, v :: rest =>
    mirrorReports env fuel dn volumeSizeLimit pulse (DataNode.AddOrUpdateVolume fuel h dn v)
      (registerSlot env volumeSizeLimit pulse (DataNode.AddOrUpdateVolume fuel h dn v) dn slots v)
      rest

/-- The ids held by the volume map of an element. -/
def heldIds (h : Heap) (n : NodeRef) : Finset VolumeId :=
  ((h.cell n).volumes.map Prod.fst).toFinset

/-- The sample collaborators where unregistering a node takes it out of every
replica set, gives its volume counts back along the path to the root and empties
its volume map. -/
def clearingEnv : Env (List (VolumeId × List NodeRef)) Nat Unit :=
  { sampleEnv with
    UnRegisterDataNode := fun h t d =>
      let h1 := UpAdjustVolumeCountDelta 4 h d (-(h.cell d).volumeCount)
      let h2 := UpAdjustActiveVolumeCountDelta 4 h1 d (-(h.cell d).activeVolumeCount)
      (h2.set d { h2.cell d with volumes := [] },
       { t with replicaType2VolumeLayout :=
                  t.replicaType2VolumeLayout.map (fun slot =>
                    slot.map (fun vl => vl.map (fun e => (e.1, e.2.filter (fun x => x ≠ d))))) }) }

/-- The sample tree after its storage node reported volume 9. -/
def staleTree : Heap := DataNode.AddOrUpdateVolume 4 sampleTree 3 ⟨9, 0, 0⟩

/-- A topology over `staleTree` whose first layout holds volume 9 on node 3. -/
def staleTopology : Topology (List (VolumeId × List NodeRef)) Nat Unit :=
  { self := 0, replicaType2VolumeLayout := [some [(9, [3])], none, none], pulse := 5,
    volumeSizeLimit := 1024, sequence := 0, configuration := none }

/-- Volume reports arriving at several storage nodes: each entry is one
`AddOrUpdateVolume` call on the named node. -/
def registerAll (fuel : Nat) (h : Heap) (ops : List (NodeRef × VolumeInfo)) : Heap :=
  ops.foldl (fun s op => DataNode.AddOrUpdateVolume fuel s op.1 op.2) h

/-- A topology over the sample tree, without layouts. -/
def sampleTopology : Topology Unit Nat Unit :=
  { self := 0, replicaType2VolumeLayout := [], pulse := 5, volumeSizeLimit := 1024,
    sequence := 0, configuration := none }

/-! # Theorems -/

/-! ## Lemmas: maps -/

theorem mapGet_mapSet {κ α : Type} [DecidableEq κ] (m : List (κ × α)) (k k' : κ) (a : α) :
    mapGet (mapSet m k a) k' = if k = k' then some a else mapGet m k' := by
  induction m with
  | nil => simp [mapSet, mapGet]
  | cons e m ih =>
    obtain ⟨k0, a0⟩ := e
    by_cases h0 : k0 = k
    · subst h0
      by_cases h1 : k0 = k' <;> simp [mapSet, mapGet, h1]
    · by_cases h1 : k0 = k'
      · subst h1
        have : ¬ k = k0 := fun e => h0 e.symm
        simp [mapSet, mapGet, h0, this]
      · simp [mapSet, mapGet, h0, h1, ih]

theorem mapSet_mapSet {κ α : Type} [DecidableEq κ] (m : List (κ × α)) (k : κ) (a : α) :
    mapSet (mapSet m k a) k a = mapSet m k a := by
  induction m with
  | nil => simp [mapSet]
  | cons e m ih =>
    obtain ⟨k0, a0⟩ := e
    by_cases h0 : k0 = k
    · simp [mapSet, h0]
    · simp [mapSet, h0, ih]

/-! ## Lemmas: upward propagation -/

theorem Heap.set_cell (h : Heap) (r : NodeRef) (n : Node) (j : NodeRef) :
    (h.set r n).cell j = if j = r then n else h.cell j := rfl

theorem Heap.set_next (h : Heap) (r : NodeRef) (n : Node) : (h.set r n).next = h.next := rfl

theorem upAdjust_next (f : Node → Node) (fuel : Nat) (h : Heap) (n : NodeRef) :
    (upAdjust f fuel h n).next = h.next := by
  induction fuel generalizing h n with
  | zero => rfl
  | succ fuel ih =>
    simp only [upAdjust]
    cases (h.cell n).parent with
    | none => rfl
    | some p => simp only [ih, Heap.set_next]

/-- A field that `f` leaves alone is left alone by the whole walk. -/
theorem upAdjust_proj {β : Type} (g : Node → β) (f : Node → Node) (hf : ∀ x, g (f x) = g x)
    (fuel : Nat) (h : Heap) (n j : NodeRef) :
    g ((upAdjust f fuel h n).cell j) = g (h.cell j) := by
  induction fuel generalizing h n with
  | zero => rfl
  | succ fuel ih =>
    simp only [upAdjust]
    cases (h.cell n).parent with
    | none =>
      simp only [Heap.set_cell]
      split_ifs with hj
      · rw [hf, hj]
      · rfl
    | some p =>
      simp only [ih, Heap.set_cell]
      split_ifs with hj
      · rw [hf, hj]
      · rfl

theorem pathToRoot_congr (fuel : Nat) (h h' : Heap) (n : NodeRef)
    (hp : ∀ j, (h'.cell j).parent = (h.cell j).parent) :
    pathToRoot fuel h' n = pathToRoot fuel h n := by
  induction fuel generalizing n with
  | zero => rfl
  | succ fuel ih =>
    simp only [pathToRoot, hp]
    cases (h.cell n).parent with
    | none => rfl
    | some p => simp only [ih]

/-- On a walk that visits no element twice, `f` is applied exactly once to each
visited element and nothing else changes. -/
theorem upAdjust_cell (f : Node → Node) (hf : ∀ x, (f x).parent = x.parent)
    (fuel : Nat) (h : Heap) (n : NodeRef) (hnd : (pathToRoot fuel h n).Nodup) (j : NodeRef) :
    (upAdjust f fuel h n).cell j
      = if j ∈ pathToRoot fuel h n then f (h.cell j) else h.cell j := by
  induction fuel generalizing h n with
  | zero => simp [upAdjust, pathToRoot]
  | succ fuel ih =>
    rcases hpar : (h.cell n).parent with _ | p
    · simp only [upAdjust, pathToRoot, hpar, Heap.set_cell, List.mem_singleton]
      split_ifs with hj
      · rw [hj]
      · rfl
    · simp only [pathToRoot, hpar] at hnd
      simp only [upAdjust, pathToRoot, hpar]
      have hcongr : pathToRoot fuel (h.set n (f (h.cell n))) p = pathToRoot fuel h p := by
        apply pathToRoot_congr
        intro i
        simp only [Heap.set_cell]
        split_ifs with hi
        · rw [hf, hi]
        · rfl
      have hnd2 := List.nodup_cons.mp hnd
      rw [ih _ _ (by rw [hcongr]; exact hnd2.2), hcongr]
      simp only [Heap.set_cell, List.mem_cons]
      by_cases hj : j = n
      · subst hj
        simp [hnd2.1]
      · simp [hj]

/-- The walk from a storage node linked under a rack, a datacenter and the
topology root visits exactly these four elements. -/
theorem pathToRoot_chain (fuel : Nat) (h : Heap) (dn rack dc topo : NodeRef) (hfuel : 4 ≤ fuel)
    (h1 : (h.cell dn).parent = some rack) (h2 : (h.cell rack).parent = some dc)
    (h3 : (h.cell dc).parent = some topo) (h4 : (h.cell topo).parent = none) :
    pathToRoot fuel h dn = [dn, rack, dc, topo] := by
  obtain ⟨f, rfl⟩ : ∃ f, fuel = f + 4 := ⟨fuel - 4, by omega⟩
  simp [pathToRoot, h1, h2, h3, h4]

theorem chain_nodup (h : Heap) (dn rack dc topo : NodeRef)
    (h1 : (h.cell dn).parent = some rack) (h2 : (h.cell rack).parent = some dc)
    (h3 : (h.cell dc).parent = some topo) (h4 : (h.cell topo).parent = none) :
    [dn, rack, dc, topo].Nodup := by
  have e1 : dc ≠ topo := fun e => by rw [e, h4] at h3; cases h3
  have e2 : rack ≠ topo := fun e => by rw [e, h4] at h2; cases h2
  have e3 : dn ≠ topo := fun e => by rw [e, h4] at h1; cases h1
  have e4 : rack ≠ dc := fun e => by
    rw [e, h3] at h2; exact e1 (Option.some.inj h2).symm
  have e5 : dn ≠ dc := fun e => by
    rw [e, h3] at h1; exact e2 (Option.some.inj h1).symm
  have e6 : dn ≠ rack := fun e => by
    rw [e, h2] at h1; exact e4 (Option.some.inj h1).symm
  simp [e1, e2, e3, e4, e5, e6]

/-! ## Lemmas: `AddOrUpdateVolume` -/

theorem Heap.ext_iff_cell (h h' : Heap) (hc : ∀ j, h'.cell j = h.cell j) (hn : h'.next = h.next) :
    h' = h := by
  cases h with
  | mk c n =>
    cases h' with
    | mk c' n' =>
      simp only at hc hn
      have : c' = c := funext hc
      rw [this, hn]

theorem putVolume_parent (h : Heap) (dn : NodeRef) (v : VolumeInfo) (j : NodeRef) :
    ((putVolume h dn v).cell j).parent = (h.cell j).parent := by
  simp only [putVolume, Heap.set_cell]
  split_ifs with hj
  · rw [hj]
  · rfl

theorem putVolume_path (fuel : Nat) (h : Heap) (dn : NodeRef) (v : VolumeInfo) (n : NodeRef) :
    pathToRoot fuel (putVolume h dn v) n = pathToRoot fuel h n :=
  pathToRoot_congr fuel h _ n (putVolume_parent h dn v)

theorem UpAdjustVolumeCountDelta_proj {β : Type} (g : Node → β)
    (hg : ∀ (x : Node) (c : Int), g { x with volumeCount := c } = g x)
    (fuel : Nat) (h : Heap) (n : NodeRef) (delta : Int) (j : NodeRef) :
    g ((UpAdjustVolumeCountDelta fuel h n delta).cell j) = g (h.cell j) :=
  upAdjust_proj g (fun x => { x with volumeCount := x.volumeCount + delta })
    (fun x => hg x _) fuel h n j

theorem UpAdjustActiveVolumeCountDelta_proj {β : Type} (g : Node → β)
    (hg : ∀ (x : Node) (c : Int), g { x with activeVolumeCount := c } = g x)
    (fuel : Nat) (h : Heap) (n : NodeRef) (delta : Int) (j : NodeRef) :
    g ((UpAdjustActiveVolumeCountDelta fuel h n delta).cell j) = g (h.cell j) :=
  upAdjust_proj g (fun x => { x with activeVolumeCount := x.activeVolumeCount + delta })
    (fun x => hg x _) fuel h n j

theorem UpAdjustMaxVolumeId_proj {β : Type} (g : Node → β)
    (hg : ∀ (x : Node) (c : VolumeId), g { x with maxVolumeId := c } = g x)
    (fuel : Nat) (h : Heap) (n : NodeRef) (vid : VolumeId) (j : NodeRef) :
    g ((UpAdjustMaxVolumeId fuel h n vid).cell j) = g (h.cell j) :=
  upAdjust_proj g (fun x => { x with maxVolumeId := max x.maxVolumeId vid })
    (fun x => hg x _) fuel h n j

theorem UpAdjustVolumeCountDelta_cell (fuel : Nat) (h : Heap) (n : NodeRef) (delta : Int)
    (hnd : (pathToRoot fuel h n).Nodup) (j : NodeRef) :
    (UpAdjustVolumeCountDelta fuel h n delta).cell j
      = if j ∈ pathToRoot fuel h n then
          { h.cell j with volumeCount := (h.cell j).volumeCount + delta }
        else h.cell j :=
  upAdjust_cell (fun x => { x with volumeCount := x.volumeCount + delta })
    (fun _ => rfl) fuel h n hnd j

theorem UpAdjustActiveVolumeCountDelta_cell (fuel : Nat) (h : Heap) (n : NodeRef) (delta : Int)
    (hnd : (pathToRoot fuel h n).Nodup) (j : NodeRef) :
    (UpAdjustActiveVolumeCountDelta fuel h n delta).cell j
      = if j ∈ pathToRoot fuel h n then
          { h.cell j with activeVolumeCount := (h.cell j).activeVolumeCount + delta }
        else h.cell j :=
  upAdjust_cell (fun x => { x with activeVolumeCount := x.activeVolumeCount + delta })
    (fun _ => rfl) fuel h n hnd j

theorem UpAdjustMaxVolumeId_cell (fuel : Nat) (h : Heap) (n : NodeRef) (vid : VolumeId)
    (hnd : (pathToRoot fuel h n).Nodup) (j : NodeRef) :
    (UpAdjustMaxVolumeId fuel h n vid).cell j
      = if j ∈ pathToRoot fuel h n then
          { h.cell j with maxVolumeId := max (h.cell j).maxVolumeId vid }
        else h.cell j :=
  upAdjust_cell (fun x => { x with maxVolumeId := max x.maxVolumeId vid })
    (fun _ => rfl) fuel h n hnd j

theorem UpAdjustVolumeCountDelta_path (fuel fuel' : Nat) (h : Heap) (n : NodeRef) (delta : Int)
    (m : NodeRef) :
    pathToRoot fuel' (UpAdjustVolumeCountDelta fuel h n delta) m = pathToRoot fuel' h m :=
  pathToRoot_congr fuel' h _ m
    (UpAdjustVolumeCountDelta_proj Node.parent (fun _ _ => rfl) fuel h n delta)

theorem UpAdjustActiveVolumeCountDelta_path (fuel fuel' : Nat) (h : Heap) (n : NodeRef)
    (delta : Int) (m : NodeRef) :
    pathToRoot fuel' (UpAdjustActiveVolumeCountDelta fuel h n delta) m = pathToRoot fuel' h m :=
  pathToRoot_congr fuel' h _ m
    (UpAdjustActiveVolumeCountDelta_proj Node.parent (fun _ _ => rfl) fuel h n delta)

theorem AddOrUpdateVolume_unfold_new (fuel : Nat) (h : Heap) (dn : NodeRef) (v : VolumeInfo)
    (hnew : mapGet (h.cell dn).volumes v.Id = none) :
    DataNode.AddOrUpdateVolume fuel h dn v
      = UpAdjustMaxVolumeId fuel
          (UpAdjustActiveVolumeCountDelta fuel
            (UpAdjustVolumeCountDelta fuel (putVolume h dn v) dn 1) dn 1) dn v.Id := by
  simp only [DataNode.AddOrUpdateVolume, hnew, if_true, putVolume]

/-- The state after a call that inserts a new id, element by element: on the walk
from the node to the root the three counters move, elsewhere nothing does. -/
theorem AddOrUpdateVolume_cell_new (fuel : Nat) (h : Heap) (dn : NodeRef) (v : VolumeInfo)
    (hnew : mapGet (h.cell dn).volumes v.Id = none)
    (hnd : (pathToRoot fuel h dn).Nodup) (j : NodeRef) :
    (DataNode.AddOrUpdateVolume fuel h dn v).cell j
      = if j ∈ pathToRoot fuel h dn then
          { (putVolume h dn v).cell j with
            volumeCount := ((putVolume h dn v).cell j).volumeCount + 1
            activeVolumeCount := ((putVolume h dn v).cell j).activeVolumeCount + 1
            maxVolumeId := max ((putVolume h dn v).cell j).maxVolumeId v.Id }
        else (putVolume h dn v).cell j := by
  have e1 : pathToRoot fuel (putVolume h dn v) dn = pathToRoot fuel h dn :=
    putVolume_path fuel h dn v dn
  rw [AddOrUpdateVolume_unfold_new fuel h dn v hnew]
  rw [UpAdjustMaxVolumeId_cell _ _ _ _ (by
        rw [UpAdjustActiveVolumeCountDelta_path, UpAdjustVolumeCountDelta_path, e1]; exact hnd),
      UpAdjustActiveVolumeCountDelta_path, UpAdjustVolumeCountDelta_path,
      UpAdjustActiveVolumeCountDelta_cell _ _ _ _ (by
        rw [UpAdjustVolumeCountDelta_path, e1]; exact hnd),
      UpAdjustVolumeCountDelta_path,
      UpAdjustVolumeCountDelta_cell _ _ _ _ (by rw [e1]; exact hnd), e1]
  split_ifs <;> rfl

theorem AddOrUpdateVolume_cell_old (fuel : Nat) (h : Heap) (dn : NodeRef) (v : VolumeInfo)
    (hold : mapGet (h.cell dn).volumes v.Id ≠ none) :
    DataNode.AddOrUpdateVolume fuel h dn v = putVolume h dn v := by
  simp only [DataNode.AddOrUpdateVolume, hold, if_false, putVolume]

/-- A field other than the volume map and the three counters is never written. -/
theorem AddOrUpdateVolume_proj {β : Type} (g : Node → β)
    (hg1 : ∀ (x : Node) (c : Int), g { x with volumeCount := c } = g x)
    (hg2 : ∀ (x : Node) (c : Int), g { x with activeVolumeCount := c } = g x)
    (hg3 : ∀ (x : Node) (c : VolumeId), g { x with maxVolumeId := c } = g x)
    (fuel : Nat) (h : Heap) (dn : NodeRef) (v : VolumeInfo) (j : NodeRef) :
    g ((DataNode.AddOrUpdateVolume fuel h dn v).cell j) = g ((putVolume h dn v).cell j) := by
  by_cases hnew : mapGet (h.cell dn).volumes v.Id = none
  · rw [AddOrUpdateVolume_unfold_new fuel h dn v hnew, UpAdjustMaxVolumeId_proj g hg3,
      UpAdjustActiveVolumeCountDelta_proj g hg2, UpAdjustVolumeCountDelta_proj g hg1]
  · rw [AddOrUpdateVolume_cell_old fuel h dn v hnew]

/-- Whatever the shape of the tree, the call only rewrites the volume map of `dn`,
with the assignment `volumes[v.Id] = v`. -/
theorem AddOrUpdateVolume_volumes (fuel : Nat) (h : Heap) (dn : NodeRef) (v : VolumeInfo)
    (j : NodeRef) :
    ((DataNode.AddOrUpdateVolume fuel h dn v).cell j).volumes
      = if j = dn then mapSet (h.cell dn).volumes v.Id v else (h.cell j).volumes := by
  rw [AddOrUpdateVolume_proj Node.volumes (fun _ _ => rfl) (fun _ _ => rfl) (fun _ _ => rfl)]
  simp only [putVolume, Heap.set_cell]
  split_ifs <;> rfl

theorem AddOrUpdateVolume_parent (fuel : Nat) (h : Heap) (dn : NodeRef) (v : VolumeInfo)
    (j : NodeRef) :
    ((DataNode.AddOrUpdateVolume fuel h dn v).cell j).parent = (h.cell j).parent := by
  rw [AddOrUpdateVolume_proj Node.parent (fun _ _ => rfl) (fun _ _ => rfl) (fun _ _ => rfl)]
  exact putVolume_parent h dn v j

/-- Calling `AddOrUpdateVolume` again with the same descriptor changes nothing. -/
theorem AddOrUpdateVolume_twice (fuel : Nat) (h : Heap) (dn : NodeRef) (v : VolumeInfo) :
    DataNode.AddOrUpdateVolume fuel (DataNode.AddOrUpdateVolume fuel h dn v) dn v
      = DataNode.AddOrUpdateVolume fuel h dn v := by
  have hv := AddOrUpdateVolume_volumes fuel h dn v dn
  simp only [if_true] at hv
  have hold : mapGet ((DataNode.AddOrUpdateVolume fuel h dn v).cell dn).volumes v.Id ≠ none := by
    rw [hv, mapGet_mapSet]; simp
  rw [AddOrUpdateVolume_cell_old _ _ _ _ hold]
  apply Heap.ext_iff_cell
  · intro j
    simp only [putVolume, Heap.set_cell]
    split_ifs with hj
    · subst hj
      rw [hv, mapSet_mapSet, ← hv]
    · rfl
  · rfl

/-! ## The volume count along the path to the root -/

theorem LinkedUnder.path {h : Heap} {dn rack dc topo : NodeRef} (hl : LinkedUnder h dn rack dc topo)
    {fuel : Nat} (hfuel : 4 ≤ fuel) : pathToRoot fuel h dn = [dn, rack, dc, topo] :=
  pathToRoot_chain fuel h dn rack dc topo hfuel hl.1 hl.2.1 hl.2.2.1 hl.2.2.2

theorem LinkedUnder.nodup {h : Heap} {dn rack dc topo : NodeRef}
    (hl : LinkedUnder h dn rack dc topo) : [dn, rack, dc, topo].Nodup :=
  chain_nodup h dn rack dc topo hl.1 hl.2.1 hl.2.2.1 hl.2.2.2

theorem LinkedUnder.step {h : Heap} {dn rack dc topo : NodeRef}
    (hl : LinkedUnder h dn rack dc topo) (fuel : Nat) (v : VolumeInfo) :
    LinkedUnder (DataNode.AddOrUpdateVolume fuel h dn v) dn rack dc topo := by
  simp only [LinkedUnder, AddOrUpdateVolume_parent]
  exact hl

theorem putVolume_volumeCount (h : Heap) (dn : NodeRef) (v : VolumeInfo) (j : NodeRef) :
    ((putVolume h dn v).cell j).volumeCount = (h.cell j).volumeCount := by
  simp only [putVolume, Heap.set_cell]
  split_ifs with hj
  · rw [hj]
  · rfl

/-- One call moves the volume count of every element on the path by one when the id
is new and by nothing otherwise. -/
theorem AddOrUpdateVolume_volumeCount_path {h : Heap} {dn rack dc topo : NodeRef}
    (hl : LinkedUnder h dn rack dc topo) {fuel : Nat} (hfuel : 4 ≤ fuel) (v : VolumeInfo)
    (j : NodeRef) (hj : j ∈ [dn, rack, dc, topo]) :
    ((DataNode.AddOrUpdateVolume fuel h dn v).cell j).volumeCount
      = (h.cell j).volumeCount + (if mapGet (h.cell dn).volumes v.Id = none then 1 else 0) := by
  by_cases hnew : mapGet (h.cell dn).volumes v.Id = none
  · rw [AddOrUpdateVolume_cell_new fuel h dn v hnew (by rw [hl.path hfuel]; exact hl.nodup),
      hl.path hfuel, if_pos hj, if_pos hnew]
    simp only [putVolume_volumeCount]
  · rw [AddOrUpdateVolume_cell_old fuel h dn v hnew, if_neg hnew, putVolume_volumeCount]
    simp

/-- Invariant of a run of calls: the ids in the volume map are the ids added so far
and the volume count is their number at each of the four levels. -/
theorem addAll_volumeCount {dn rack dc topo : NodeRef} {fuel : Nat} (hfuel : 4 ≤ fuel)
    (vs : List VolumeInfo) (h : Heap) (S : Finset VolumeId)
    (hl : LinkedUnder h dn rack dc topo)
    (hkeys : ∀ i, mapGet (h.cell dn).volumes i ≠ none ↔ i ∈ S)
    (hcount : ∀ j ∈ [dn, rack, dc, topo], (h.cell j).volumeCount = (S.card : Int)) :
    ∀ j ∈ [dn, rack, dc, topo],
      ((addAll fuel h dn vs).cell j).volumeCount
        = (((S ∪ (vs.map VolumeInfo.Id).toFinset).card : Nat) : Int) := by
  induction vs generalizing h S with
  | nil =>
    intro j hj
    simpa [addAll] using hcount j hj
  | cons v vs ih =>
    intro j hj
    have hkeys1 : ∀ i, mapGet ((DataNode.AddOrUpdateVolume fuel h dn v).cell dn).volumes i ≠ none
        ↔ i ∈ insert v.Id S := by
      intro i
      rw [AddOrUpdateVolume_volumes, if_pos rfl, mapGet_mapSet, Finset.mem_insert]
      by_cases hi : v.Id = i
      · simp [hi]
      · have hi2 : ¬ i = v.Id := fun e => hi e.symm
        simp [hi, hi2, hkeys i]
    have hcount1 : ∀ j ∈ [dn, rack, dc, topo],
        ((DataNode.AddOrUpdateVolume fuel h dn v).cell j).volumeCount
          = ((insert v.Id S).card : Int) := by
      intro j hj
      rw [AddOrUpdateVolume_volumeCount_path hl hfuel v j hj, hcount j hj]
      by_cases hnew : mapGet (h.cell dn).volumes v.Id = none
      · have hmem : v.Id ∉ S := fun hm => (hkeys v.Id).mpr hm hnew
        rw [if_pos hnew, Finset.card_insert_of_not_mem hmem]
        push_cast
        rfl
      · have hmem : v.Id ∈ S := (hkeys v.Id).mp hnew
        rw [if_neg hnew, Finset.insert_eq_of_mem hmem]
        simp
    have key := ih (DataNode.AddOrUpdateVolume fuel h dn v) (insert v.Id S) (hl.step fuel v)
      hkeys1 hcount1 j hj
    have hS : insert v.Id S ∪ (vs.map VolumeInfo.Id).toFinset
        = S ∪ ((v :: vs).map VolumeInfo.Id).toFinset := by
      ext i
      simp only [Finset.mem_union, Finset.mem_insert, List.mem_toFinset, List.map_cons,
        List.mem_cons]
      tauto
    rw [hS] at key
    simpa [addAll] using key

/-- C1: on a storage node that starts with no volumes and a zero volume count, linked
under a rack, a datacenter and a topology whose volume counts are also zero, after
each call of a sequence of `AddOrUpdateVolume` calls (after the first `k` calls, for
every `k`) the volume count of the node, of the rack, of the datacenter and of the
topology all equal the number of distinct volume ids added so far. -/
theorem AddOrUpdateVolume_count_is_distinct_ids
    (fuel : Nat) (h : Heap) (dn rack dc topo : NodeRef) (vs : List VolumeInfo) (k : Nat)
    (hfuel : 4 ≤ fuel) (hl : LinkedUnder h dn rack dc topo)
    (hvol : (h.cell dn).volumes = [])
    (hzero : (h.cell dn).volumeCount = 0 ∧ (h.cell rack).volumeCount = 0 ∧
      (h.cell dc).volumeCount = 0 ∧ (h.cell topo).volumeCount = 0) :
    ((addAll fuel h dn (vs.take k)).cell dn).volumeCount
        = ((((vs.take k).map VolumeInfo.Id).toFinset.card : Nat) : Int) ∧
    ((addAll fuel h dn (vs.take k)).cell rack).volumeCount
        = ((((vs.take k).map VolumeInfo.Id).toFinset.card : Nat) : Int) ∧
    ((addAll fuel h dn (vs.take k)).cell dc).volumeCount
        = ((((vs.take k).map VolumeInfo.Id).toFinset.card : Nat) : Int) ∧
    ((addAll fuel h dn (vs.take k)).cell topo).volumeCount
        = ((((vs.take k).map VolumeInfo.Id).toFinset.card : Nat) : Int) := by
  have key := addAll_volumeCount hfuel (vs.take k) h ∅ hl
    (by intro i; simp [hvol, mapGet])
    (by
      intro j hj
      simp only [List.mem_cons, List.mem_singleton, List.not_mem_nil, or_false] at hj
      rcases hj with rfl | rfl | rfl | rfl
      · simpa using hzero.1
      · simpa using hzero.2.1
      · simpa using hzero.2.2.1
      · simpa using hzero.2.2.2)
  simp only [Finset.empty_union] at key
  exact ⟨key dn (by simp), key rack (by simp), key dc (by simp), key topo (by simp)⟩

/-- Three reports on the sample tree, two of them for volume 5: the linkage holds
and every level counts the distinct ids of the reports. -/
theorem AddOrUpdateVolume_count_is_distinct_ids_witness :
    LinkedUnder sampleTree 3 2 1 0 ∧
    ((addAll 4 sampleTree 3 ([⟨5, 0, 0⟩, ⟨7, 10, 0⟩, ⟨5, 20, 0⟩].take 3)).cell 3).volumeCount
        = (((([⟨5, 0, 0⟩, ⟨7, 10, 0⟩, ⟨5, 20, 0⟩] : List VolumeInfo).take 3).map
            VolumeInfo.Id).toFinset.card : Nat) ∧
    ((addAll 4 sampleTree 3 ([⟨5, 0, 0⟩, ⟨7, 10, 0⟩, ⟨5, 20, 0⟩].take 3)).cell 2).volumeCount
        = (((([⟨5, 0, 0⟩, ⟨7, 10, 0⟩, ⟨5, 20, 0⟩] : List VolumeInfo).take 3).map
            VolumeInfo.Id).toFinset.card : Nat) ∧
    ((addAll 4 sampleTree 3 ([⟨5, 0, 0⟩, ⟨7, 10, 0⟩, ⟨5, 20, 0⟩].take 3)).cell 1).volumeCount
        = (((([⟨5, 0, 0⟩, ⟨7, 10, 0⟩, ⟨5, 20, 0⟩] : List VolumeInfo).take 3).map
            VolumeInfo.Id).toFinset.card : Nat) ∧
    ((addAll 4 sampleTree 3 ([⟨5, 0, 0⟩, ⟨7, 10, 0⟩, ⟨5, 20, 0⟩].take 3)).cell 0).volumeCount
        = (((([⟨5, 0, 0⟩, ⟨7, 10, 0⟩, ⟨5, 20, 0⟩] : List VolumeInfo).take 3).map
            VolumeInfo.Id).toFinset.card : Nat) :=
  ⟨⟨rfl, rfl, rfl, rfl⟩,
    AddOrUpdateVolume_count_is_distinct_ids 4 sampleTree 3 2 1 0
      [⟨5, 0, 0⟩, ⟨7, 10, 0⟩, ⟨5, 20, 0⟩] 3 (by decide) ⟨rfl, rfl, rfl, rfl⟩ rfl
      ⟨rfl, rfl, rfl, rfl⟩⟩

/-! ## The effect of one call -/

theorem putVolume_counters (h : Heap) (dn : NodeRef) (v : VolumeInfo) (j : NodeRef) :
    ((putVolume h dn v).cell j).volumeCount = (h.cell j).volumeCount ∧
    ((putVolume h dn v).cell j).activeVolumeCount = (h.cell j).activeVolumeCount ∧
    ((putVolume h dn v).cell j).maxVolumeId = (h.cell j).maxVolumeId := by
  simp only [putVolume, Heap.set_cell]
  split_ifs with hj
  · rw [hj]; exact ⟨rfl, rfl, rfl⟩
  · exact ⟨rfl, rfl, rfl⟩

/-- C2: the effect of one `AddOrUpdateVolume(v)` call on a tree whose walk from the
node to the root visits no element twice.  If `v.Id` is not in the volume map, the
volume count and the active volume count go up by exactly 1 and the maximum volume
id becomes the maximum of its old value and `v.Id`, at the node and at every element
of the walk, and nowhere else; if `v.Id` is in the map, the three counters of every
element of the tree are unchanged.  In both cases the map of the node afterwards
holds `v` at `v.Id` and its old entry at every other id, the maps of the other
elements are unchanged, and a second call with the same `v` changes nothing. -/
theorem AddOrUpdateVolume_single_call (fuel : Nat) (h : Heap) (dn : NodeRef) (v : VolumeInfo)
    (hfuel : 0 < fuel) (hnd : (pathToRoot fuel h dn).Nodup) :
    (mapGet (h.cell dn).volumes v.Id = none →
      dn ∈ pathToRoot fuel h dn ∧
      ∀ j, ((DataNode.AddOrUpdateVolume fuel h dn v).cell j).volumeCount
            = (h.cell j).volumeCount + (if j ∈ pathToRoot fuel h dn then 1 else 0) ∧
          ((DataNode.AddOrUpdateVolume fuel h dn v).cell j).activeVolumeCount
            = (h.cell j).activeVolumeCount + (if j ∈ pathToRoot fuel h dn then 1 else 0) ∧
          ((DataNode.AddOrUpdateVolume fuel h dn v).cell j).maxVolumeId
            = (if j ∈ pathToRoot fuel h dn then max (h.cell j).maxVolumeId v.Id
               else (h.cell j).maxVolumeId)) ∧
    (mapGet (h.cell dn).volumes v.Id ≠ none →
      ∀ j, ((DataNode.AddOrUpdateVolume fuel h dn v).cell j).volumeCount
            = (h.cell j).volumeCount ∧
          ((DataNode.AddOrUpdateVolume fuel h dn v).cell j).activeVolumeCount
            = (h.cell j).activeVolumeCount ∧
          ((DataNode.AddOrUpdateVolume fuel h dn v).cell j).maxVolumeId
            = (h.cell j).maxVolumeId) ∧
    (∀ i, mapGet ((DataNode.AddOrUpdateVolume fuel h dn v).cell dn).volumes i
            = if i = v.Id then some v else mapGet (h.cell dn).volumes i) ∧
    (∀ j, j ≠ dn →
      ((DataNode.AddOrUpdateVolume fuel h dn v).cell j).volumes = (h.cell j).volumes) ∧
    DataNode.AddOrUpdateVolume fuel (DataNode.AddOrUpdateVolume fuel h dn v) dn v
      = DataNode.AddOrUpdateVolume fuel h dn v := by
  refine ⟨?_, ?_, ?_, ?_, AddOrUpdateVolume_twice fuel h dn v⟩
  · intro hnew
    refine ⟨?_, ?_⟩
    · obtain ⟨f, rfl⟩ : ∃ f, fuel = f + 1 := ⟨fuel - 1, by omega⟩
      simp [pathToRoot]
    · intro j
      have hc := putVolume_counters h dn v j
      rw [AddOrUpdateVolume_cell_new fuel h dn v hnew hnd j]
      split_ifs with hj
      · exact ⟨by simp [hc.1], by simp [hc.2.1], by simp [hc.2.2]⟩
      · exact ⟨by simp [hc.1], by simp [hc.2.1], by simp [hc.2.2]⟩
  · intro hold j
    rw [AddOrUpdateVolume_cell_old fuel h dn v hold]
    exact putVolume_counters h dn v j
  · intro i
    rw [AddOrUpdateVolume_volumes, if_pos rfl, mapGet_mapSet]
    by_cases hi : i = v.Id
    · simp [hi]
    · have hi2 : ¬ v.Id = i := fun e => hi e.symm
      simp [hi, hi2]
  · intro j hj
    rw [AddOrUpdateVolume_volumes, if_neg hj]

/-- Two calls on the sample tree for the same volume, the second with a new size. -/
theorem AddOrUpdateVolume_single_call_witness :
    (pathToRoot 4 sampleTree 3).Nodup ∧
    ((DataNode.AddOrUpdateVolume 4 sampleTree 3 ⟨5, 0, 0⟩).cell 0).volumeCount
      = (sampleTree.cell 0).volumeCount + (if 0 ∈ pathToRoot 4 sampleTree 3 then 1 else 0) ∧
    DataNode.AddOrUpdateVolume 4 (DataNode.AddOrUpdateVolume 4 sampleTree 3 ⟨5, 0, 0⟩) 3 ⟨5, 0, 0⟩
      = DataNode.AddOrUpdateVolume 4 sampleTree 3 ⟨5, 0, 0⟩ :=
  ⟨by decide,
    (((AddOrUpdateVolume_single_call 4 sampleTree 3 ⟨5, 0, 0⟩ (by decide) (by decide)).1
      rfl).2 0).1,
    (AddOrUpdateVolume_single_call 4 sampleTree 3 ⟨5, 0, 0⟩ (by decide) (by decide)).2.2.2.2⟩

/-! ## The maximum volume id -/

theorem upAdjust_maxVolumeId_le (f : Node → Node)
    (hf : ∀ x, x.maxVolumeId ≤ (f x).maxVolumeId) (fuel : Nat) (h : Heap) (n j : NodeRef) :
    (h.cell j).maxVolumeId ≤ ((upAdjust f fuel h n).cell j).maxVolumeId := by
  induction fuel generalizing h n with
  | zero => exact le_refl _
  | succ fuel ih =>
    have hset : (h.cell j).maxVolumeId ≤ ((h.set n (f (h.cell n))).cell j).maxVolumeId := by
      simp only [Heap.set_cell]
      split_ifs with hj
      · rw [hj]; exact hf _
      · exact le_refl _
    rcases hpar : (h.cell n).parent with _ | p
    · simp only [upAdjust, hpar]
      exact hset
    · simp only [upAdjust, hpar]
      exact le_trans hset (ih _ p)

theorem UpAdjustMaxVolumeId_le (fuel : Nat) (h : Heap) (n : NodeRef) (vid : VolumeId)
    (j : NodeRef) :
    (h.cell j).maxVolumeId ≤ ((UpAdjustMaxVolumeId fuel h n vid).cell j).maxVolumeId :=
  upAdjust_maxVolumeId_le (fun x => { x with maxVolumeId := max x.maxVolumeId vid })
    (fun _ => le_max_left _ _) fuel h n j

theorem upAdjust_succ_none (f : Node → Node) (fuel : Nat) (h : Heap) (n : NodeRef)
    (hp : (h.cell n).parent = none) :
    upAdjust f (fuel + 1) h n = h.set n (f (h.cell n)) := by
  show (match (h.cell n).parent with
    | none => h.set n (f (h.cell n))
    | some p => upAdjust f fuel (h.set n (f (h.cell n))) p) = _
  rw [hp]

theorem upAdjust_succ_some (f : Node → Node) (fuel : Nat) (h : Heap) (n p : NodeRef)
    (hp : (h.cell n).parent = some p) :
    upAdjust f (fuel + 1) h n = upAdjust f fuel (h.set n (f (h.cell n))) p := by
  show (match (h.cell n).parent with
    | none => h.set n (f (h.cell n))
    | some p => upAdjust f fuel (h.set n (f (h.cell n))) p) = _
  rw [hp]

theorem upAdjust_maxVolumeId_ge (f : Node → Node) (vid : VolumeId)
    (hf1 : ∀ x, x.maxVolumeId ≤ (f x).maxVolumeId) (hf2 : ∀ x, vid ≤ (f x).maxVolumeId)
    (hf3 : ∀ x, (f x).parent = x.parent)
    (fuel : Nat) (h : Heap) (n : NodeRef) (j : NodeRef) (hj : j ∈ pathToRoot fuel h n) :
    vid ≤ ((upAdjust f fuel h n).cell j).maxVolumeId := by
  induction fuel generalizing h n with
  | zero => simp [pathToRoot] at hj
  | succ fuel ih =>
    have hcongr : ∀ p, pathToRoot fuel (h.set n (f (h.cell n))) p = pathToRoot fuel h p := by
      intro p
      apply pathToRoot_congr
      intro i
      simp only [Heap.set_cell]
      split_ifs with hi
      · rw [hf3, hi]
      · rfl
    have hself : vid ≤ ((h.set n (f (h.cell n))).cell n).maxVolumeId := by
      simp only [Heap.set_cell, if_true]
      exact hf2 _
    rcases hpar : (h.cell n).parent with _ | p
    · simp only [pathToRoot, hpar, List.mem_singleton] at hj
      rw [upAdjust_succ_none f fuel h n hpar, hj]
      exact hself
    · simp only [pathToRoot, hpar, List.mem_cons] at hj
      rw [upAdjust_succ_some f fuel h n p hpar]
      rcases hj with hj | hj
      · rw [hj]
        exact le_trans hself (upAdjust_maxVolumeId_le f hf1 fuel _ p n)
      · exact ih _ p (by rw [hcongr]; exact hj)

/-- After the walk every visited element has a maximum of at least `vid`. -/
theorem UpAdjustMaxVolumeId_ge (fuel : Nat) (h : Heap) (n : NodeRef) (vid : VolumeId)
    (j : NodeRef) (hj : j ∈ pathToRoot fuel h n) :
    vid ≤ ((UpAdjustMaxVolumeId fuel h n vid).cell j).maxVolumeId :=
  upAdjust_maxVolumeId_ge (fun x => { x with maxVolumeId := max x.maxVolumeId vid }) vid
    (fun _ => le_max_left _ _) (fun _ => le_max_right _ _) (fun _ => rfl) fuel h n j hj

theorem AddOrUpdateVolume_maxVolumeId_le (fuel : Nat) (h : Heap) (dn : NodeRef) (v : VolumeInfo)
    (j : NodeRef) :
    (h.cell j).maxVolumeId ≤ ((DataNode.AddOrUpdateVolume fuel h dn v).cell j).maxVolumeId := by
  by_cases hnew : mapGet (h.cell dn).volumes v.Id = none
  · rw [AddOrUpdateVolume_unfold_new fuel h dn v hnew]
    refine le_trans ?_ (UpAdjustMaxVolumeId_le fuel _ dn v.Id j)
    rw [UpAdjustActiveVolumeCountDelta_proj Node.maxVolumeId (fun _ _ => rfl),
      UpAdjustVolumeCountDelta_proj Node.maxVolumeId (fun _ _ => rfl),
      (putVolume_counters h dn v j).2.2]
  · rw [AddOrUpdateVolume_cell_old fuel h dn v hnew, (putVolume_counters h dn v j).2.2]

theorem AddOrUpdateVolume_maxVolumeId_ge (fuel : Nat) (h : Heap) (dn : NodeRef) (v : VolumeInfo)
    (hnew : mapGet (h.cell dn).volumes v.Id = none) (j : NodeRef)
    (hj : j ∈ pathToRoot fuel h dn) :
    v.Id ≤ ((DataNode.AddOrUpdateVolume fuel h dn v).cell j).maxVolumeId := by
  rw [AddOrUpdateVolume_unfold_new fuel h dn v hnew]
  apply UpAdjustMaxVolumeId_ge
  rw [UpAdjustActiveVolumeCountDelta_path, UpAdjustVolumeCountDelta_path, putVolume_path]
  exact hj

/-- Invariant of a run of reports: every id held by any element is at most the
maximum volume id of the element `t` that all reporting nodes walk through. -/
theorem registerAll_maxVolumeId (fuel : Nat) (t : NodeRef) (h0 : Heap)
    (ops : List (NodeRef × VolumeInfo)) (h : Heap)
    (hpar : ∀ j, (h.cell j).parent = (h0.cell j).parent)
    (hreach : ∀ op ∈ ops, t ∈ pathToRoot fuel h0 op.1)
    (hinv : ∀ j i, mapGet (h.cell j).volumes i ≠ none → i ≤ (h.cell t).maxVolumeId) :
    ∀ j i, mapGet ((registerAll fuel h ops).cell j).volumes i ≠ none
      → i ≤ ((registerAll fuel h ops).cell t).maxVolumeId := by
  induction ops generalizing h with
  | nil => simpa [registerAll] using hinv
  | cons op ops ih =>
    have hstep := ih (DataNode.AddOrUpdateVolume fuel h op.1 op.2)
      (by intro j; rw [AddOrUpdateVolume_parent, hpar])
      (fun o ho => hreach o (List.mem_cons_of_mem _ ho))
      (by
        intro j i hi
        have hmono := AddOrUpdateVolume_maxVolumeId_le fuel h op.1 op.2 t
        rw [AddOrUpdateVolume_volumes] at hi
        by_cases hj : j = op.1
        · rw [if_pos hj, mapGet_mapSet] at hi
          by_cases hid : op.2.Id = i
          · by_cases hnew : mapGet (h.cell op.1).volumes op.2.Id = none
            · rw [← hid]
              apply AddOrUpdateVolume_maxVolumeId_ge fuel h op.1 op.2 hnew
              rw [pathToRoot_congr fuel h0 h op.1 hpar]
              exact hreach op (List.mem_cons_self _ _)
            · rw [← hid]
              exact le_trans (hinv op.1 op.2.Id hnew) hmono
          · rw [if_neg hid] at hi
            exact le_trans (hinv op.1 i hi) hmono
        · rw [if_neg hj] at hi
          exact le_trans (hinv j i hi) hmono)
    simpa [registerAll] using hstep

/-- C9 (amended): `NextVolumeId` returns `Next` of the maximum volume id of the
topology (it is a read: the state is not an output).  On a tree whose elements
started without volumes and received them through `AddOrUpdateVolume` calls on
nodes whose walk to the root passes the topology, as long as the maximum volume id
is below the largest id of the `w`-bit type (the increment does not wrap), the
returned id is the maximum plus one and is strictly greater than every volume id
held by any element of the tree. -/
theorem NextVolumeId_fresh_below_limit {VL Seq Conf : Type} (w fuel : Nat) (h0 : Heap)
    (t : Topology VL Seq Conf) (ops : List (NodeRef × VolumeInfo))
    (hempty : ∀ j, (h0.cell j).volumes = [])
    (hreach : ∀ op ∈ ops, t.self ∈ pathToRoot fuel h0 op.1)
    (hroom : GetMaxVolumeId (registerAll fuel h0 ops) t.self + 1 < 2 ^ w) :
    Topology.NextVolumeId w (registerAll fuel h0 ops) t
      = VolumeId.Next w (GetMaxVolumeId (registerAll fuel h0 ops) t.self) ∧
    Topology.NextVolumeId w (registerAll fuel h0 ops) t
      = GetMaxVolumeId (registerAll fuel h0 ops) t.self + 1 ∧
    ∀ j i, mapGet ((registerAll fuel h0 ops).cell j).volumes i ≠ none →
      i < Topology.NextVolumeId w (registerAll fuel h0 ops) t := by
  have hnext : Topology.NextVolumeId w (registerAll fuel h0 ops) t
      = GetMaxVolumeId (registerAll fuel h0 ops) t.self + 1 := by
    simp only [Topology.NextVolumeId, VolumeId.Next]
    exact Nat.mod_eq_of_lt hroom
  refine ⟨rfl, hnext, ?_⟩
  intro j i hi
  have hle := registerAll_maxVolumeId fuel t.self h0 ops h0 (fun _ => rfl) hreach
    (by intro j i hi; simp [hempty, mapGet] at hi) j i hi
  rw [hnext]
  exact Nat.lt_succ_of_le hle

/-- Volumes 5 and 9 reported by the storage node of the sample tree, ids of 32
bits: the next volume id is 10. -/
theorem NextVolumeId_fresh_below_limit_witness :
    GetMaxVolumeId (registerAll 4 sampleTree [(3, ⟨5, 0, 0⟩), (3, ⟨9, 0, 0⟩)]) 0 + 1 < 2 ^ 32 ∧
    Topology.NextVolumeId 32 (registerAll 4 sampleTree [(3, ⟨5, 0, 0⟩), (3, ⟨9, 0, 0⟩)])
      sampleTopology = 10 ∧
    ∀ j i, mapGet ((registerAll 4 sampleTree [(3, ⟨5, 0, 0⟩), (3, ⟨9, 0, 0⟩)]).cell j).volumes i
        ≠ none →
      i < Topology.NextVolumeId 32 (registerAll 4 sampleTree [(3, ⟨5, 0, 0⟩), (3, ⟨9, 0, 0⟩)])
        sampleTopology :=
  ⟨by decide,
    (NextVolumeId_fresh_below_limit 32 4 sampleTree sampleTopology
      [(3, ⟨5, 0, 0⟩), (3, ⟨9, 0, 0⟩)]
      (by intro j; simp only [sampleTree]; split_ifs <;> rfl) (by decide) (by decide)).2.1,
    (NextVolumeId_fresh_below_limit 32 4 sampleTree sampleTopology
      [(3, ⟨5, 0, 0⟩), (3, ⟨9, 0, 0⟩)]
      (by intro j; simp only [sampleTree]; split_ifs <;> rfl) (by decide) (by decide)).2.2⟩

/-- C9 as stated fails at the top of the id range: with ids of 32 bits, once the
storage node of the sample tree has reported volume 4294967295 through
`AddOrUpdateVolume`, the maximum volume id of the topology is 4294967295, the node
holds that id, and `NextVolumeId` returns 0, which is below the held id. -/
theorem NextVolumeId_wraps_at_limit :
    GetMaxVolumeId (registerAll 4 sampleTree [(3, ⟨4294967295, 0, 0⟩)]) sampleTopology.self
      = 4294967295 ∧
    mapGet ((registerAll 4 sampleTree [(3, ⟨4294967295, 0, 0⟩)]).cell 3).volumes 4294967295
      = some ⟨4294967295, 0, 0⟩ ∧
    Topology.NextVolumeId 32 (registerAll 4 sampleTree [(3, ⟨4294967295, 0, 0⟩)]) sampleTopology
      = 0 ∧
    Topology.NextVolumeId 32 (registerAll 4 sampleTree [(3, ⟨4294967295, 0, 0⟩)]) sampleTopology
      < 4294967295 := by
  decide

/-! ## Lookup -/

theorem lookupSlots_eq_some {VL : Type} (f : VL → VolumeId → Option (List NodeRef))
    (vid : VolumeId) (slots : List (Option VL)) (list : List NodeRef) :
    lookupSlots f vid slots = some list ↔
      ∃ (i : Nat) (vl : VL), slots[i]? = some (some vl) ∧ f vl vid = some list ∧
        ∀ (j : Nat) (vl' : VL), j < i → slots[j]? = some (some vl') → f vl' vid = none := by
  induction slots with
  | nil => simp [lookupSlots]
  | cons s rest ih =>
    have shift : (∃ (i : Nat) (vl : VL), rest[i]? = some (some vl) ∧ f vl vid = some list ∧
          ∀ (j : Nat) (vl' : VL), j < i → rest[j]? = some (some vl') → f vl' vid = none) →
        (∀ vl', s = some vl' → f vl' vid = none) →
        ∃ (i : Nat) (vl : VL), (s :: rest)[i]? = some (some vl) ∧ f vl vid = some list ∧
          ∀ (j : Nat) (vl' : VL), j < i → (s :: rest)[j]? = some (some vl') →
            f vl' vid = none := by
      rintro ⟨i, vl, h1, h2, h3⟩ hs
      refine ⟨i + 1, vl, by simpa using h1, h2, ?_⟩
      intro j vl' hj hget
      cases j with
      | zero =>
        simp only [List.getElem?_cons_zero, Option.some.injEq] at hget
        exact hs vl' hget
      | succ j =>
        simp only [List.getElem?_cons_succ] at hget
        exact h3 j vl' (by omega) hget
    have unshift : ∀ (i : Nat) (vl : VL), (s :: rest)[i + 1]? = some (some vl) →
        f vl vid = some list →
        (∀ (j : Nat) (vl' : VL), j < i + 1 → (s :: rest)[j]? = some (some vl') →
          f vl' vid = none) →
        ∃ (i : Nat) (vl : VL), rest[i]? = some (some vl) ∧ f vl vid = some list ∧
          ∀ (j : Nat) (vl' : VL), j < i → rest[j]? = some (some vl') → f vl' vid = none := by
      intro i vl h1 h2 h3
      refine ⟨i, vl, by simpa using h1, h2, ?_⟩
      intro j vl' hj hget
      exact h3 (j + 1) vl' (by omega) (by simpa using hget)
    cases s with
    | none =>
      simp only [lookupSlots]
      rw [ih]
      constructor
      · intro hx
        exact shift hx (by intro vl' hvl; cases hvl)
      · rintro ⟨i, vl, h1, h2, h3⟩
        cases i with
        | zero => simp at h1
        | succ i => exact unshift i vl h1 h2 h3
    | some vl0 =>
      cases hf : f vl0 vid with
      | some l0 =>
        simp only [lookupSlots, hf, Option.some.injEq]
        constructor
        · intro hl
          refine ⟨0, vl0, by simp, by rw [hf, hl], ?_⟩
          intro j vl' hj
          omega
        · rintro ⟨i, vl, h1, h2, h3⟩
          cases i with
          | zero =>
            simp only [List.getElem?_cons_zero, Option.some.injEq] at h1
            rw [← h1, hf] at h2
            exact Option.some.inj h2
          | succ i =>
            have := h3 0 vl0 (by omega) (by simp)
            rw [hf] at this
            cases this
      | none =>
        simp only [lookupSlots, hf]
        rw [ih]
        constructor
        · intro hx
          refine shift hx ?_
          intro vl' hvl
          cases hvl
          exact hf
        · rintro ⟨i, vl, h1, h2, h3⟩
          cases i with
          | zero =>
            simp only [List.getElem?_cons_zero, Option.some.injEq] at h1
            rw [← h1, hf] at h2
            cases h2
          | succ i => exact unshift i vl h1 h2 h3

theorem lookupSlots_eq_none {VL : Type} (f : VL → VolumeId → Option (List NodeRef))
    (vid : VolumeId) (slots : List (Option VL)) :
    lookupSlots f vid slots = none ↔ ∀ vl, some vl ∈ slots → f vl vid = none := by
  induction slots with
  | nil => simp [lookupSlots]
  | cons s rest ih =>
    cases s with
    | none => simp [lookupSlots, ih]
    | some vl0 =>
      cases hf : f vl0 vid with
      | some l0 =>
        simp only [lookupSlots, hf, List.mem_cons, Option.some.injEq]
        constructor
        · intro hx
          cases hx
        · intro hall
          have := hall vl0 (Or.inl rfl)
          rw [hf] at this
          cases this
      | none =>
        simp only [lookupSlots, hf, ih, List.mem_cons, Option.some.injEq]
        constructor
        · intro hall vl hvl
          rcases hvl with hvl | hvl
          · rw [hvl]; exact hf
          · exact hall vl hvl
        · intro hall vl hvl
          exact hall vl (Or.inr hvl)

/-- C5: `Topology.Lookup(vid)` goes through the layout slots in index order and
skips the slots not yet created: it returns `list` exactly when some existing
layout at an index `i` returns `list` (not `nil`) and every existing layout at a
lower index returns `nil`; it returns `nil` exactly when every existing layout
returns `nil` for `vid` (so also when no layout exists); the topology is the same
after the call. -/
theorem Lookup_first_existing_layout {VL Seq Conf : Type} (env : Env VL Seq Conf)
    (t : Topology VL Seq Conf) (vid : VolumeId) :
    (∀ list, (t.Lookup env vid).1 = some list ↔
      ∃ (i : Nat) (vl : VL), t.replicaType2VolumeLayout[i]? = some (some vl) ∧
        env.vlLookup vl vid = some list ∧
        ∀ (j : Nat) (vl' : VL), j < i → t.replicaType2VolumeLayout[j]? = some (some vl') →
          env.vlLookup vl' vid = none) ∧
    ((t.Lookup env vid).1 = none ↔
      ∀ vl, some vl ∈ t.replicaType2VolumeLayout → env.vlLookup vl vid = none) ∧
    (t.Lookup env vid).2 = t :=
  ⟨fun list => lookupSlots_eq_some env.vlLookup vid t.replicaType2VolumeLayout list,
    lookupSlots_eq_none env.vlLookup vid t.replicaType2VolumeLayout, rfl⟩

/-! ## PickForWrite -/

theorem layoutPick_eq_some {VL Seq Conf : Type} {env : Env VL Seq Conf}
    {t : Topology VL Seq Conf} {repType : ReplicationType} {count : Int} {dataCenter : String}
    {pick : LayoutPick} (hpick : t.layoutPick env repType count dataCenter = some pick) :
    ∃ vl, t.slotOrNew env repType = some vl ∧ (env.vlPickForWrite vl count dataCenter).1 = pick := by
  unfold Topology.layoutPick at hpick
  cases hs : t.slotOrNew env repType with
  | none => rw [hs] at hpick; cases hpick
  | some vl =>
    rw [hs] at hpick
    exact ⟨vl, rfl, Option.some.inj hpick⟩

theorem PickForWrite_of_layout_failure {VL Seq Conf : Type} (env : Env VL Seq Conf)
    (salt : Nat) (t : Topology VL Seq Conf) (repType : ReplicationType) (count : Int)
    (dataCenter : String) (vl : VL) (hs : t.slotOrNew env repType = some vl)
    (hfail : (env.vlPickForWrite vl count dataCenter).1.err ≠ none ∨
      (env.vlPickForWrite vl count dataCenter).1.datanodes.length = 0) :
    t.PickForWrite env salt repType count dataCenter
      = some ({ fileId := "", count := 0, node := none,
                err := some "No writable volumes avalable!" },
              { t with replicaType2VolumeLayout :=
                         t.replicaType2VolumeLayout.set (env.GetReplicationLevelIndex repType)
                           (some (env.vlPickForWrite vl count dataCenter).2) }) := by
  simp only [Topology.PickForWrite, hs]
  rw [if_pos hfail]

theorem PickForWrite_of_layout_success {VL Seq Conf : Type} (env : Env VL Seq Conf)
    (salt : Nat) (t : Topology VL Seq Conf) (repType : ReplicationType) (count : Int)
    (dataCenter : String) (vl : VL) (hs : t.slotOrNew env repType = some vl)
    (hok : ¬ ((env.vlPickForWrite vl count dataCenter).1.err ≠ none ∨
      (env.vlPickForWrite vl count dataCenter).1.datanodes.length = 0))
    (vid : VolumeId) (hvid : (env.vlPickForWrite vl count dataCenter).1.vid = some vid) :
    t.PickForWrite env salt repType count dataCenter
      = some ({ fileId := env.NewFileIdString vid
                  (env.NextFileId t.sequence (env.vlPickForWrite vl count dataCenter).1.count).1.1
                  salt,
                count :=
                  (env.NextFileId t.sequence (env.vlPickForWrite vl count dataCenter).1.count).1.2,
                node := (env.vlPickForWrite vl count dataCenter).1.datanodes.head?,
                err := none },
              { t with
                replicaType2VolumeLayout :=
                  t.replicaType2VolumeLayout.set (env.GetReplicationLevelIndex repType)
                    (some (env.vlPickForWrite vl count dataCenter).2)
                sequence :=
                  (env.NextFileId t.sequence
                    (env.vlPickForWrite vl count dataCenter).1.count).2 }) := by
  simp only [Topology.PickForWrite, hs]
  rw [if_neg hok, hvid]

/-- C3: when the slot index of the policy is in range and the layout keeps its
contract (a success with a non-empty replica set carries a volume id),
`Topology.PickForWrite` returns, and its error is not `nil` exactly when the
layout's `PickForWrite` returned an error or a replica set of length 0.  In that
case the result is exactly the empty file id, the count 0, the `nil` node and the
error "No writable volumes avalable!", and the sequencer is in the state it had
before the call (`NextFileId` was not called).  In every other case the result is
completely filled: the error is `nil`, the node is the head of the replica set
(not `nil`), the file id is the text built from the volume id of the layout, the
base id of the sequencer and the salt, the count is the one the sequencer granted,
and the sequencer is in the state after that one request.  In both cases the
topology afterwards differs from the one before only in the sequencer and in the
slot of the policy, which holds the layout as its `PickForWrite` left it. -/
theorem PickForWrite_error_iff_layout_fails {VL Seq Conf : Type} (env : Env VL Seq Conf)
    (salt : Nat) (t : Topology VL Seq Conf) (repType : ReplicationType) (count : Int)
    (dataCenter : String) (pick : LayoutPick)
    (hpick : t.layoutPick env repType count dataCenter = some pick)
    (hvid : pick.err = none → pick.datanodes ≠ [] → pick.vid ≠ none) :
    ∃ r t' vl, t.PickForWrite env salt repType count dataCenter = some (r, t') ∧
      t.slotOrNew env repType = some vl ∧
      t'.replicaType2VolumeLayout
        = t.replicaType2VolumeLayout.set (env.GetReplicationLevelIndex repType)
            (some (env.vlPickForWrite vl count dataCenter).2) ∧
      (t'.self = t.self ∧ t'.pulse = t.pulse ∧ t'.volumeSizeLimit = t.volumeSizeLimit ∧
        t'.configuration = t.configuration) ∧
      (r.err ≠ none ↔ (pick.err ≠ none ∨ pick.datanodes.length = 0)) ∧
      (r.err ≠ none →
        r = { fileId := "", count := 0, node := none,
              err := some "No writable volumes avalable!" } ∧
        r.fileId = "" ∧ r.count = 0 ∧ r.node = none ∧ t'.sequence = t.sequence) ∧
      (r.err = none →
        r.node ≠ none ∧ r.node = pick.datanodes.head? ∧
        ∃ vid d, pick.vid = some vid ∧ pick.datanodes.head? = some d ∧
          r = { fileId := env.NewFileIdString vid (env.NextFileId t.sequence pick.count).1.1 salt,
                count := (env.NextFileId t.sequence pick.count).1.2,
                node := some d,
                err := none } ∧
          t'.sequence = (env.NextFileId t.sequence pick.count).2) := by
  obtain ⟨vl, hs, hp⟩ := layoutPick_eq_some hpick
  by_cases hfail : pick.err ≠ none ∨ pick.datanodes.length = 0
  · refine ⟨_, _, vl, PickForWrite_of_layout_failure env salt t repType count dataCenter vl hs
      (by rw [hp]; exact hfail), hs, rfl, ⟨rfl, rfl, rfl, rfl⟩, ?_, ?_, ?_⟩
    · exact ⟨fun _ => hfail, fun _ h => by cases h⟩
    · intro _
      exact ⟨rfl, rfl, rfl, rfl, rfl⟩
    · intro h
      cases h
  · have herr : pick.err = none := by
      by_contra hne
      exact hfail (Or.inl hne)
    have hne : pick.datanodes ≠ [] := by
      intro hnil
      exact hfail (Or.inr (by rw [hnil]; rfl))
    obtain ⟨vid, hv⟩ := Option.ne_none_iff_exists'.mp (hvid herr hne)
    obtain ⟨d, ds, hd⟩ := List.exists_cons_of_ne_nil hne
    have key := PickForWrite_of_layout_success env salt t repType count dataCenter vl hs
      (by rw [hp]; exact hfail) vid (by rw [hp]; exact hv)
    rw [hp, hd] at key
    refine ⟨_, _, vl, key, hs, rfl, ⟨rfl, rfl, rfl, rfl⟩, ?_, ?_, ?_⟩
    · exact ⟨fun h => absurd rfl h, fun h => absurd h hfail⟩
    · intro h
      exact absurd rfl h
    · intro _
      refine ⟨by simp, by simp [hd], vid, d, hv, by simp [hd], rfl, rfl⟩

/-- The sample layout offers volume 5 on node 3: the call succeeds with the file id
"5,0,7", one identifier granted and the sequencer moved to 1; on a topology without
writable volume the same call returns the error and leaves the sequencer at 0. -/
theorem PickForWrite_error_iff_layout_fails_witness :
    (sampleWritable.PickForWrite sampleEnv 7 0 1 "dc1").map (fun x => (x.1, x.2.sequence))
      = some ({ fileId := "5,0,7", count := 1, node := some 3, err := none }, 1) ∧
    (sampleUnwritable.PickForWrite sampleEnv 7 0 1 "dc1").map (fun x => (x.1, x.2.sequence))
      = some ({ fileId := "", count := 0, node := none,
                err := some "No writable volumes avalable!" }, 0) ∧
    ∃ r t' vl, sampleWritable.PickForWrite sampleEnv 7 0 1 "dc1" = some (r, t') ∧
      sampleWritable.slotOrNew sampleEnv 0 = some vl ∧
      t'.replicaType2VolumeLayout
        = sampleWritable.replicaType2VolumeLayout.set (sampleEnv.GetReplicationLevelIndex 0)
            (some (sampleEnv.vlPickForWrite vl 1 "dc1").2) ∧
      (t'.self = sampleWritable.self ∧ t'.pulse = sampleWritable.pulse ∧
        t'.volumeSizeLimit = sampleWritable.volumeSizeLimit ∧
        t'.configuration = sampleWritable.configuration) ∧
      (r.err ≠ none ↔ ((none : Option String) ≠ none ∨ [3].length = 0)) ∧
      (r.err ≠ none →
        r = { fileId := "", count := 0, node := none,
              err := some "No writable volumes avalable!" } ∧
        r.fileId = "" ∧ r.count = 0 ∧ r.node = none ∧ t'.sequence = sampleWritable.sequence) ∧
      (r.err = none →
        r.node ≠ none ∧ r.node = [3].head? ∧
        ∃ vid d, (some 5 : Option VolumeId) = some vid ∧ [3].head? = some d ∧
          r = { fileId := sampleEnv.NewFileIdString vid
                  (sampleEnv.NextFileId sampleWritable.sequence 1).1.1 7,
                count := (sampleEnv.NextFileId sampleWritable.sequence 1).1.2,
                node := some d,
                err := none } ∧
          t'.sequence = (sampleEnv.NextFileId sampleWritable.sequence 1).2) :=
  ⟨by decide, by decide,
    PickForWrite_error_iff_layout_fails sampleEnv 7 sampleWritable 0 1 "dc1"
      { vid := some 5, count := 1, datanodes := [3], err := none } rfl (by decide)⟩

/-- C4 (amended): when the layout's `PickForWrite(count, dataCenter)` succeeds with
volume id `vid` and a non-empty replica set, `Topology.PickForWrite` asks the
sequencer for the count that the layout returned (`pick.count`; it is the count
the caller passed whenever the layout echoes it) and returns the text of the file
id built from `vid`, the base id the sequencer returned and the salt, together
with the granted count the sequencer returned and the first node of the replica
set; the sequencer is left in the state after that one request. -/
theorem PickForWrite_requests_layout_count {VL Seq Conf : Type} (env : Env VL Seq Conf)
    (salt : Nat) (t : Topology VL Seq Conf) (repType : ReplicationType) (count : Int)
    (dataCenter : String) (pick : LayoutPick) (vid : VolumeId) (d : NodeRef) (ds : List NodeRef)
    (hpick : t.layoutPick env repType count dataCenter = some pick)
    (herr : pick.err = none) (hvid : pick.vid = some vid) (hnodes : pick.datanodes = d :: ds) :
    ∃ t', t.PickForWrite env salt repType count dataCenter
        = some ({ fileId := env.NewFileIdString vid (env.NextFileId t.sequence pick.count).1.1 salt,
                  count := (env.NextFileId t.sequence pick.count).1.2,
                  node := some d,
                  err := none }, t') ∧
      t'.sequence = (env.NextFileId t.sequence pick.count).2 ∧
      (pick.count = count →
        (t.PickForWrite env salt repType count dataCenter).map (fun x => x.1.count)
          = some (env.NextFileId t.sequence count).1.2) := by
  obtain ⟨vl, hs, hp⟩ := layoutPick_eq_some hpick
  have hok : ¬ ((env.vlPickForWrite vl count dataCenter).1.err ≠ none ∨
      (env.vlPickForWrite vl count dataCenter).1.datanodes.length = 0) := by
    rw [hp, herr, hnodes]
    simp
  have key := PickForWrite_of_layout_success env salt t repType count dataCenter vl hs hok vid
    (by rw [hp]; exact hvid)
  rw [hp, hnodes] at key
  refine ⟨_, key, rfl, ?_⟩
  intro hecho
  rw [key, hecho]
  rfl

/-- The sample layout echoes the count: one identifier is requested and granted. -/
theorem PickForWrite_requests_layout_count_witness :
    ∃ t', sampleWritable.PickForWrite sampleEnv 7 0 1 "dc1"
        = some ({ fileId := sampleEnv.NewFileIdString 5
                    (sampleEnv.NextFileId sampleWritable.sequence 1).1.1 7,
                  count := (sampleEnv.NextFileId sampleWritable.sequence 1).1.2,
                  node := some 3,
                  err := none }, t') ∧
      t'.sequence = (sampleEnv.NextFileId sampleWritable.sequence 1).2 ∧
      ((1 : Int) = 1 →
        (sampleWritable.PickForWrite sampleEnv 7 0 1 "dc1").map (fun x => x.1.count)
          = some (sampleEnv.NextFileId sampleWritable.sequence 1).1.2) :=
  PickForWrite_requests_layout_count sampleEnv 7 sampleWritable 0 1 "dc1"
    { vid := some 5, count := 1, datanodes := [3], err := none } 5 3 [] rfl rfl rfl rfl

/-- C4 as stated fails when the layout adjusts the count: the caller passes 1, the
layout of `batchingEnv` succeeds with volume 5 on node 3 and returns the count 3;
`Topology.PickForWrite` then grants 3 identifiers and leaves the sequencer at 3,
while a request for the caller's count would grant 1 and leave it at 1. -/
theorem PickForWrite_count_not_callers :
    sampleWritable.layoutPick batchingEnv 0 1 "dc1"
      = some { vid := some 5, count := 3, datanodes := [3], err := none } ∧
    (sampleWritable.PickForWrite batchingEnv 7 0 1 "dc1").map
        (fun x => (x.1.count, x.1.node, x.1.err, x.2.sequence))
      = some (3, some 3, none, 3) ∧
    batchingEnv.NextFileId sampleWritable.sequence 1 = ((0, 1), 1) ∧
    batchingEnv.NextFileId sampleWritable.sequence 3 = ((0, 3), 3) := by
  decide

/-! ## Reserving a volume -/

theorem randIntn_range (raw : Nat) (n : Int) (hn : 0 < n) :
    ∃ r, randIntn raw n = some r ∧ 0 ≤ r ∧ r < n := by
  refine ⟨(raw : Int) % n, ?_, Int.emod_nonneg _ (by omega), Int.emod_lt_of_pos _ hn⟩
  simp only [randIntn]
  rw [if_neg (by omega)]

/-- C6: `Topology.RandomlyReserveOneVolume(dataCenter)`.  When the free space of
the topology is not positive it returns `(false, nil, nil)` and the registry is
unchanged (no volume id is minted, `ReserveOneVolume` is not called).  When the free
space is positive the call does not panic: the random generator gets the positive
bound `FreeSpace()` and yields an offset `r` with `0 <= r < FreeSpace()`, and the
call returns the `(ok, node)` of `ReserveOneVolume(r, vid, dataCenter)` with a
pointer to `vid = NextVolumeId()`, the registry being the one `ReserveOneVolume`
left.  Every offset of that range is the outcome of some draw. -/
theorem RandomlyReserveOneVolume_admission {VL Seq Conf : Type} (env : Env VL Seq Conf)
    (w raw : Nat) (h : Heap) (t : Topology VL Seq Conf) (dataCenter : String) :
    (FreeSpace h t.self ≤ 0 →
      t.RandomlyReserveOneVolume env w raw h dataCenter = some ((false, none, none), h)) ∧
    (0 < FreeSpace h t.self →
      ∃ r, randIntn raw (FreeSpace h t.self) = some r ∧ 0 ≤ r ∧ r < FreeSpace h t.self ∧
        t.RandomlyReserveOneVolume env w raw h dataCenter
          = some (((env.ReserveOneVolume h t.self r (t.NextVolumeId w h) dataCenter).1.1,
                   (env.ReserveOneVolume h t.self r (t.NextVolumeId w h) dataCenter).1.2,
                   some (t.NextVolumeId w h)),
                  (env.ReserveOneVolume h t.self r (t.NextVolumeId w h) dataCenter).2)) ∧
    (∀ r : Int, 0 ≤ r → r < FreeSpace h t.self →
      randIntn r.toNat (FreeSpace h t.self) = some r) := by
  refine ⟨?_, ?_, ?_⟩
  · intro hle
    simp only [Topology.RandomlyReserveOneVolume]
    rw [if_pos hle]
  · intro hpos
    obtain ⟨r, hr, h0, h1⟩ := randIntn_range raw (FreeSpace h t.self) hpos
    refine ⟨r, hr, h0, h1, ?_⟩
    simp only [Topology.RandomlyReserveOneVolume]
    rw [if_neg (by omega), hr]
  · intro r h0 h1
    simp only [randIntn]
    rw [if_neg (by omega), Int.toNat_of_nonneg h0, Int.emod_eq_of_lt h0 h1]

/-! ## Loading the configuration -/

/-- C8: loading the configuration when a topology is built.  If the file cannot be
read, `loadConfiguration` returns no error and leaves the configuration as it was,
so `NewTopology` returns a `nil` error with the default (`nil`) configuration; if
the file is read, `loadConfiguration` returns the error of `NewConfiguration` (and
stores its configuration), and `NewTopology` returns that error.  The error of
`NewTopology` is not `nil` exactly when the file was read and `NewConfiguration`
returned an error. -/
theorem NewTopology_error_only_when_malformed {VL Seq Conf : Type} (env : Env VL Seq Conf)
    (h : Heap) (id confFile dirname sequenceFilename : String) (volumeSizeLimit : Nat)
    (pulse : Int) :
    (∀ (t : Topology VL Seq Conf) e, env.ReadFile confFile = .error e →
      t.loadConfiguration env confFile = (t, none)) ∧
    (∀ (t : Topology VL Seq Conf) b, env.ReadFile confFile = .ok b →
      t.loadConfiguration env confFile
        = ({ t with configuration := (env.NewConfiguration b).1 }, (env.NewConfiguration b).2)) ∧
    (∀ e, env.ReadFile confFile = .error e →
      (NewTopology env h id confFile dirname sequenceFilename volumeSizeLimit pulse).2 = none ∧
      (NewTopology env h id confFile dirname sequenceFilename volumeSizeLimit
        pulse).1.2.configuration = none) ∧
    (∀ b, env.ReadFile confFile = .ok b →
      (NewTopology env h id confFile dirname sequenceFilename volumeSizeLimit pulse).2
        = (env.NewConfiguration b).2) ∧
    ((NewTopology env h id confFile dirname sequenceFilename volumeSizeLimit pulse).2 ≠ none ↔
      ∃ b, env.ReadFile confFile = .ok b ∧ (env.NewConfiguration b).2 ≠ none) := by
  refine ⟨?_, ?_, ?_, ?_, ?_⟩
  · intro t e he
    simp only [Topology.loadConfiguration, he]
  · intro t b hb
    simp only [Topology.loadConfiguration, hb]
  · intro e he
    simp [NewTopology, Topology.loadConfiguration, he]
  · intro b hb
    simp only [NewTopology, Topology.loadConfiguration, hb]
  · cases hr : env.ReadFile confFile with
    | error e =>
      simp only [NewTopology, Topology.loadConfiguration, hr]
      constructor
      · intro hx
        exact absurd rfl hx
      · rintro ⟨b, hb, _⟩
        cases hb
    | ok b =>
      simp only [NewTopology, Topology.loadConfiguration, hr]
      constructor
      · intro hx
        exact ⟨b, rfl, hx⟩
      · rintro ⟨b', hb', hx⟩
        cases hb'
        exact hx

/-! ## Datacenters by name -/

theorem mem_mapSet {κ α : Type} [DecidableEq κ] (m : List (κ × α)) (k : κ) (a : α)
    (e : κ × α) (he : e ∈ mapSet m k a) : e ∈ m ∨ e = (k, a) := by
  induction m with
  | nil =>
    simp only [mapSet, List.mem_singleton] at he
    exact Or.inr he
  | cons e0 m ih =>
    obtain ⟨k0, a0⟩ := e0
    by_cases h0 : k0 = k
    · simp only [mapSet, h0, if_true, List.mem_cons] at he
      rcases he with he | he
      · exact Or.inr he
      · exact Or.inl (List.mem_cons_of_mem _ he)
    · simp only [mapSet, h0, if_false, List.mem_cons] at he
      rcases he with he | he
      · exact Or.inl (by rw [he]; exact List.mem_cons_self _ _)
      · rcases ih he with h1 | h1
        · exact Or.inl (List.mem_cons_of_mem _ h1)
        · exact Or.inr h1

theorem mapSet_mem_self {κ α : Type} [DecidableEq κ] (m : List (κ × α)) (k : κ) (a : α) :
    (k, a) ∈ mapSet m k a := by
  induction m with
  | nil => simp [mapSet]
  | cons e0 m ih =>
    obtain ⟨k0, a0⟩ := e0
    by_cases h0 : k0 = k
    · simp [mapSet, h0]
    · simp only [mapSet, h0, if_false]
      exact List.mem_cons_of_mem _ ih

theorem find?_mapSet {κ α : Type} [DecidableEq κ] (p : κ × α → Bool) (m : List (κ × α))
    (k : κ) (a : α) (hm : ∀ e ∈ m, p e = false) (hp : p (k, a) = true) :
    (mapSet m k a).find? p = some (k, a) := by
  induction m with
  | nil => simp [mapSet, hp]
  | cons e0 m ih =>
    obtain ⟨k0, a0⟩ := e0
    have h00 : p (k0, a0) = false := hm _ (List.mem_cons_self _ _)
    by_cases h0 : k0 = k
    · simp [mapSet, h0, hp]
    · simp only [mapSet, h0, if_false, List.find?_cons, h00]
      exact ih (fun e he => hm e (List.mem_cons_of_mem _ he))

theorem nodup_map_mapSet {κ α β : Type} [DecidableEq κ] (g : κ × α → β) (m : List (κ × α))
    (k : κ) (a : α) (hnd : (m.map g).Nodup) (hnew : g (k, a) ∉ m.map g) :
    ((mapSet m k a).map g).Nodup := by
  induction m with
  | nil => simp [mapSet]
  | cons e0 m ih =>
    obtain ⟨k0, a0⟩ := e0
    simp only [List.map_cons, List.nodup_cons, List.mem_cons, not_or] at hnd hnew
    by_cases h0 : k0 = k
    · simp only [mapSet, h0, if_true, List.map_cons, List.nodup_cons]
      exact ⟨hnew.2, hnd.2⟩
    · simp only [mapSet, h0, if_false, List.map_cons, List.nodup_cons]
      refine ⟨?_, ih hnd.2 hnew.2⟩
      intro hmem
      obtain ⟨e, he, hge⟩ := List.mem_map.mp hmem
      rcases mem_mapSet m k a e he with h1 | h1
      · exact hnd.1 (List.mem_map.mpr ⟨e, h1, hge⟩)
      · rw [h1] at hge
        exact hnew.1 hge

/-- When every child is a datacenter the loop does not panic and finds the first
child, in iteration order, whose id is the name. -/
theorem findDataCenter_eq (h : Heap) (dcName : String) (l : List (NodeId × NodeRef))
    (hdc : ∀ e ∈ l, (h.cell e.2).nodeType = "DataCenter") :
    findDataCenter h dcName l
      = some ((l.find? (fun e => decide ((h.cell e.2).id = dcName))).map Prod.snd) := by
  induction l with
  | nil => rfl
  | cons e0 l ih =>
    obtain ⟨k0, c0⟩ := e0
    have h0 : (h.cell c0).nodeType = "DataCenter" := hdc (k0, c0) (List.mem_cons_self _ _)
    have ih2 := ih (fun e he => hdc e (List.mem_cons_of_mem _ he))
    by_cases hid : (h.cell c0).id = dcName
    · simp [findDataCenter, h0, hid]
    · simp [findDataCenter, h0, hid, ih2]

/-- The registry after a new datacenter `name` was created and linked under `n`. -/
theorem linkNew_cell (h : Heap) (n : NodeRef) (name : String) (hn : n < h.next) (j : NodeRef) :
    (LinkChildNode (NewDataCenter h name).1 n (NewDataCenter h name).2).cell j
      = if j = h.next then
          { Node.zero with id := name, nodeType := "DataCenter", parent := some n }
        else if j = n then
          { h.cell n with children := mapSet (h.cell n).children name h.next }
        else h.cell j := by
  have hne : n ≠ h.next := Nat.ne_of_lt hn
  have hne2 : h.next ≠ n := fun e => hne e.symm
  simp only [LinkChildNode, NewDataCenter, Heap.set_cell]
  by_cases h1 : j = h.next
  · subst h1
    simp [hne, hne2]
  · by_cases h2 : j = n
    · subst h2
      simp [h1]
    · simp [h1, h2]

theorem linkNew_next (h : Heap) (n : NodeRef) (name : String) :
    (LinkChildNode (NewDataCenter h name).1 n (NewDataCenter h name).2).next = h.next + 1 := rfl

theorem linkNew_old (h : Heap) (n : NodeRef) (name : String) (hn : n < h.next) (j : NodeRef)
    (hj : j ≠ h.next) :
    ((LinkChildNode (NewDataCenter h name).1 n (NewDataCenter h name).2).cell j).id
        = (h.cell j).id ∧
    ((LinkChildNode (NewDataCenter h name).1 n (NewDataCenter h name).2).cell j).nodeType
        = (h.cell j).nodeType := by
  rw [linkNew_cell h n name hn j, if_neg hj]
  split_ifs with h2
  · rw [h2]; exact ⟨rfl, rfl⟩
  · exact ⟨rfl, rfl⟩

theorem linkNew_children (h : Heap) (n : NodeRef) (name : String) (hn : n < h.next) :
    Children (LinkChildNode (NewDataCenter h name).1 n (NewDataCenter h name).2) n
      = mapSet (Children h n) name h.next := by
  simp only [Children]
  rw [linkNew_cell h n name hn n, if_neg (Nat.ne_of_lt hn), if_pos rfl]

theorem linkNew_new (h : Heap) (n : NodeRef) (name : String) (hn : n < h.next) :
    (LinkChildNode (NewDataCenter h name).1 n (NewDataCenter h name).2).cell h.next
      = { Node.zero with id := name, nodeType := "DataCenter", parent := some n } := by
  rw [linkNew_cell h n name hn h.next, if_pos rfl]

theorem linkNew_ok (h : Heap) (n : NodeRef) (name : String) (hok : TopologyChildrenOk h n) :
    TopologyChildrenOk (LinkChildNode (NewDataCenter h name).1 n (NewDataCenter h name).2) n := by
  refine ⟨by rw [linkNew_next]; exact Nat.lt_succ_of_lt hok.1, ?_⟩
  intro e he
  rw [linkNew_children h n name hok.1] at he
  rw [linkNew_next]
  rcases mem_mapSet _ _ _ e he with h1 | h1
  · have := hok.2 e h1
    refine ⟨Nat.lt_succ_of_lt this.1, ?_⟩
    rw [(linkNew_old h n name hok.1 e.2 (Nat.ne_of_lt this.1)).2]
    exact this.2
  · rw [h1]
    refine ⟨Nat.lt_succ_self _, ?_⟩
    show ((LinkChildNode (NewDataCenter h name).1 n (NewDataCenter h name).2).cell h.next).nodeType
      = "DataCenter"
    rw [linkNew_new h n name hok.1]

/-- One call, both branches: either a child with the name is returned and nothing
changes, or no child has the name and a new element is created and linked. -/
theorem GetOrCreateDataCenter_cases {VL Seq Conf : Type} (h : Heap) (t : Topology VL Seq Conf)
    (name : String) (hok : TopologyChildrenOk h t.self) :
    (∃ e ∈ Children h t.self, (h.cell e.2).id = name ∧
        t.GetOrCreateDataCenter h name = some (h, e.2)) ∨
    ((∀ e ∈ Children h t.self, (h.cell e.2).id ≠ name) ∧
        t.GetOrCreateDataCenter h name
          = some (LinkChildNode (NewDataCenter h name).1 t.self (NewDataCenter h name).2,
                  h.next)) := by
  have hfind := findDataCenter_eq h name (Children h t.self) (fun e he => (hok.2 e he).2)
  cases hf : (Children h t.self).find? (fun e => decide ((h.cell e.2).id = name)) with
  | some e =>
    left
    refine ⟨e, List.mem_of_find?_eq_some hf, by simpa using List.find?_some hf, ?_⟩
    rw [hf] at hfind
    simp only [Topology.GetOrCreateDataCenter, hfind, Option.map_some']
  | none =>
    right
    rw [hf] at hfind
    refine ⟨?_, ?_⟩
    · intro e he
      have := List.find?_eq_none.mp hf e he
      simpa using this
    · simp only [Topology.GetOrCreateDataCenter, hfind, Option.map_none']
      rfl

theorem GetOrCreateDataCenter_again {VL Seq Conf : Type} (h : Heap) (t : Topology VL Seq Conf)
    (name : String) (hok : TopologyChildrenOk h t.self)
    (hnone : ∀ e ∈ Children h t.self, (h.cell e.2).id ≠ name) :
    t.GetOrCreateDataCenter
        (LinkChildNode (NewDataCenter h name).1 t.self (NewDataCenter h name).2) name
      = some (LinkChildNode (NewDataCenter h name).1 t.self (NewDataCenter h name).2,
              h.next) := by
  have hok2 := linkNew_ok h t.self name hok
  have hfind := findDataCenter_eq
    (LinkChildNode (NewDataCenter h name).1 t.self (NewDataCenter h name).2) name
    (Children (LinkChildNode (NewDataCenter h name).1 t.self (NewDataCenter h name).2) t.self)
    (fun e he => (hok2.2 e he).2)
  rw [linkNew_children h t.self name hok.1] at hfind
  rw [find?_mapSet _ _ _ _ (by
        intro e he
        have hlt := (hok.2 e he).1
        simp only [decide_eq_false_iff_not]
        rw [(linkNew_old h t.self name hok.1 e.2 (Nat.ne_of_lt hlt)).1]
        exact hnone e he)
      (by
        simp only [decide_eq_true_eq]
        rw [linkNew_new h t.self name hok.1])] at hfind
  rw [← linkNew_children h t.self name hok.1] at hfind
  simp only [Topology.GetOrCreateDataCenter, hfind, Option.map_some']

theorem linkNew_childIds_nodup (h : Heap) (n : NodeRef) (name : String)
    (hok : TopologyChildrenOk h n) (hnone : ∀ e ∈ Children h n, (h.cell e.2).id ≠ name)
    (hnd : (childIds h n).Nodup) :
    (childIds (LinkChildNode (NewDataCenter h name).1 n (NewDataCenter h name).2) n).Nodup := by
  have hmap : (Children h n).map
      (fun e => ((LinkChildNode (NewDataCenter h name).1 n (NewDataCenter h name).2).cell e.2).id)
      = childIds h n := by
    apply List.map_congr_left
    intro e he
    exact (linkNew_old h n name hok.1 e.2 (Nat.ne_of_lt (hok.2 e he).1)).1
  simp only [childIds]
  rw [linkNew_children h n name hok.1]
  apply nodup_map_mapSet
  · rw [hmap]; exact hnd
  · rw [hmap]
    show ((LinkChildNode (NewDataCenter h name).1 n (NewDataCenter h name).2).cell h.next).id
      ∉ childIds h n
    rw [linkNew_new h n name hok.1]
    intro hmem
    obtain ⟨e, he, hid⟩ := List.mem_map.mp hmem
    exact hnone e he hid

/-- A run of calls keeps the children allocated, datacenters, and of distinct ids. -/
theorem getOrCreateAll_nodup {VL Seq Conf : Type} (t : Topology VL Seq Conf)
    (names : List String) (h : Heap) (hok : TopologyChildrenOk h t.self)
    (hnd : (childIds h t.self).Nodup) :
    ∃ h', getOrCreateAll t h names = some h' ∧ TopologyChildrenOk h' t.self ∧
      (childIds h' t.self).Nodup := by
  induction names generalizing h with
  | nil => exact ⟨h, rfl, hok, hnd⟩
  | cons name names ih =>
    rcases GetOrCreateDataCenter_cases h t name hok with ⟨e, _, _, hres⟩ | ⟨hnone, hres⟩
    · obtain ⟨h', h1, h2⟩ := ih h hok hnd
      exact ⟨h', by simp only [getOrCreateAll, hres]; exact h1, h2⟩
    · obtain ⟨h', h1, h2⟩ := ih _ (linkNew_ok h t.self name hok)
        (linkNew_childIds_nodup h t.self name hok hnone hnd)
      exact ⟨h', by simp only [getOrCreateAll, hres]; exact h1, h2⟩

/-- C10: `Topology.GetOrCreateDataCenter(name)` on a topology whose children are
datacenters.  The call returns.  If a child whose id is `name` exists, the call
returns a child and the registry (so the set of children) is unchanged; otherwise
it returns a new element, linked under the topology: the children become the old
mapping with `name` assigned to the new element, whose parent is the topology.  In
both cases the returned datacenter has id `name` and is a child afterwards, and a
second call with the same name returns the same datacenter and leaves the registry
as it is (no child is added).  Starting from children with pairwise distinct ids,
every sequence of calls returns and leaves children with pairwise distinct ids. -/
theorem GetOrCreateDataCenter_lookup_or_create {VL Seq Conf : Type} (h : Heap)
    (t : Topology VL Seq Conf) (name : String) (hok : TopologyChildrenOk h t.self) :
    ∃ h' dc, t.GetOrCreateDataCenter h name = some (h', dc) ∧
      ((∃ e ∈ Children h t.self, (h.cell e.2).id = name) →
        h' = h ∧ ∃ e ∈ Children h t.self, e.2 = dc) ∧
      ((∀ e ∈ Children h t.self, (h.cell e.2).id ≠ name) →
        dc = h.next ∧ Children h' t.self = mapSet (Children h t.self) name dc ∧
        (h'.cell dc).parent = some t.self ∧ (h'.cell dc).nodeType = "DataCenter") ∧
      (h'.cell dc).id = name ∧
      (∃ e ∈ Children h' t.self, e.2 = dc) ∧
      t.GetOrCreateDataCenter h' name = some (h', dc) ∧
      ((childIds h t.self).Nodup →
        ∀ names, ∃ h'', getOrCreateAll t h names = some h'' ∧ (childIds h'' t.self).Nodup) := by
  have hseq : (childIds h t.self).Nodup →
      ∀ names, ∃ h'', getOrCreateAll t h names = some h'' ∧ (childIds h'' t.self).Nodup := by
    intro hnd names
    obtain ⟨h'', h1, _, h3⟩ := getOrCreateAll_nodup t names h hok hnd
    exact ⟨h'', h1, h3⟩
  rcases GetOrCreateDataCenter_cases h t name hok with ⟨e, he, hid, hres⟩ | ⟨hnone, hres⟩
  · refine ⟨h, e.2, hres, ?_, ?_, hid, ⟨e, he, rfl⟩, hres, hseq⟩
    · intro _
      exact ⟨rfl, e, he, rfl⟩
    · intro hnone
      exact absurd hid (hnone e he)
  · refine ⟨_, _, hres, ?_, ?_, ?_, ?_, GetOrCreateDataCenter_again h t name hok hnone, hseq⟩
    · rintro ⟨e, he, hid⟩
      exact absurd hid (hnone e he)
    · intro _
      refine ⟨rfl, linkNew_children h t.self name hok.1, ?_, ?_⟩
      · rw [linkNew_new h t.self name hok.1]
      · rw [linkNew_new h t.self name hok.1]
    · rw [linkNew_new h t.self name hok.1]
    · refine ⟨(name, h.next), ?_, rfl⟩
      rw [linkNew_children h t.self name hok.1]
      exact mapSet_mem_self _ _ _

/-- The sample topology has the datacenter `dc1`: its children are allocated
datacenters, so asking for `dc2` returns, with all the properties of the call. -/
theorem GetOrCreateDataCenter_lookup_or_create_witness :
    TopologyChildrenOk sampleTree sampleTopology.self ∧
    ∃ h' dc, sampleTopology.GetOrCreateDataCenter sampleTree "dc2" = some (h', dc) ∧
      ((∃ e ∈ Children sampleTree sampleTopology.self, (sampleTree.cell e.2).id = "dc2") →
        h' = sampleTree ∧ ∃ e ∈ Children sampleTree sampleTopology.self, e.2 = dc) ∧
      ((∀ e ∈ Children sampleTree sampleTopology.self, (sampleTree.cell e.2).id ≠ "dc2") →
        dc = sampleTree.next ∧
        Children h' sampleTopology.self
          = mapSet (Children sampleTree sampleTopology.self) "dc2" dc ∧
        (h'.cell dc).parent = some sampleTopology.self ∧
        (h'.cell dc).nodeType = "DataCenter") ∧
      (h'.cell dc).id = "dc2" ∧
      (∃ e ∈ Children h' sampleTopology.self, e.2 = dc) ∧
      sampleTopology.GetOrCreateDataCenter h' "dc2" = some (h', dc) ∧
      ((childIds sampleTree sampleTopology.self).Nodup →
        ∀ names, ∃ h'', getOrCreateAll sampleTopology sampleTree names = some h'' ∧
          (childIds h'' sampleTopology.self).Nodup) :=
  ⟨by unfold TopologyChildrenOk; decide,
    GetOrCreateDataCenter_lookup_or_create sampleTree sampleTopology "dc2"
      (by unfold TopologyChildrenOk; decide)⟩

/-! ## Registering the volumes of a node -/

theorem slotOrNew_some {VL Seq Conf : Type} (env : Env VL Seq Conf) (t : Topology VL Seq Conf)
    (repType : ReplicationType)
    (hidx : env.GetReplicationLevelIndex repType < t.replicaType2VolumeLayout.length) :
    ∃ vl, t.slotOrNew env repType = some vl := by
  simp only [Topology.slotOrNew, List.getElem?_eq_getElem hidx]
  cases t.replicaType2VolumeLayout[env.GetReplicationLevelIndex repType] with
  | none => exact ⟨_, rfl⟩
  | some vl => exact ⟨vl, rfl⟩

/-- With its slot index in range, `RegisterVolumeLayout` returns and leaves in the
slot of the policy the layout (the existing one, or a new one) after
`RegisterVolume(v, dn)`; the number of slots does not change. -/
theorem RegisterVolumeLayout_some {VL Seq Conf : Type} (env : Env VL Seq Conf) (h : Heap)
    (t : Topology VL Seq Conf) (v : VolumeInfo) (dn : NodeRef)
    (hidx : env.GetReplicationLevelIndex v.RepType < t.replicaType2VolumeLayout.length) :
    ∃ vl t1, t.slotOrNew env v.RepType = some vl ∧
      t.RegisterVolumeLayout env h v dn = some t1 ∧
      t1.replicaType2VolumeLayout
        = t.replicaType2VolumeLayout.set (env.GetReplicationLevelIndex v.RepType)
            (some (env.vlRegisterVolume vl h v dn)) := by
  obtain ⟨vl, hvl⟩ := slotOrNew_some env t v.RepType hidx
  have heq : ∃ t1, t.RegisterVolumeLayout env h v dn = some t1 ∧
      t1.replicaType2VolumeLayout
        = (t.replicaType2VolumeLayout.set (env.GetReplicationLevelIndex v.RepType)
            (some vl)).set (env.GetReplicationLevelIndex v.RepType)
            (some (env.vlRegisterVolume vl h v dn)) := by
    simp only [Topology.RegisterVolumeLayout, Topology.GetVolumeLayout, hvl]
    exact ⟨_, rfl, rfl⟩
  obtain ⟨t1, h1, h2⟩ := heq
  exact ⟨vl, t1, hvl, h1, by rw [h2, List.set_set]⟩

/-- The volume map of the node after a run of calls: each id holds the last
descriptor reported for it, or its old entry when it was not reported. -/
theorem addAll_volumes (fuel : Nat) (dn : NodeRef) (vs : List VolumeInfo) (h : Heap)
    (i : VolumeId) :
    mapGet ((addAll fuel h dn vs).cell dn).volumes i
      = (lastReport vs i).or (mapGet (h.cell dn).volumes i) := by
  induction vs generalizing h with
  | nil => simp [addAll, lastReport]
  | cons v vs ih =>
    have hstep : addAll fuel h dn (v :: vs)
        = addAll fuel (DataNode.AddOrUpdateVolume fuel h dn v) dn vs := rfl
    rw [hstep, ih, AddOrUpdateVolume_volumes, if_pos rfl, mapGet_mapSet]
    simp only [lastReport, List.reverse_cons, List.find?_append]
    cases List.find? (fun x => decide (x.Id = i)) vs.reverse with
    | some x => simp
    | none =>
      by_cases hi : v.Id = i
      · simp [hi]
      · simp [hi]

theorem lastReport_ne_none (vs : List VolumeInfo) (v : VolumeInfo) (hv : v ∈ vs) :
    lastReport vs v.Id ≠ none := by
  intro hnone
  have := List.find?_eq_none.mp hnone v (List.mem_reverse.mpr hv)
  simp at this

theorem RegisterVolumeLayout_eq {VL Seq Conf : Type} (env : Env VL Seq Conf) (h : Heap)
    (t : Topology VL Seq Conf) (v : VolumeInfo) (dn : NodeRef)
    (hidx : env.GetReplicationLevelIndex v.RepType < t.replicaType2VolumeLayout.length) :
    t.RegisterVolumeLayout env h v dn
      = some { t with replicaType2VolumeLayout :=
                        registerSlot env t.volumeSizeLimit t.pulse h dn
                          t.replicaType2VolumeLayout v } := by
  rcases hs : t.replicaType2VolumeLayout[env.GetReplicationLevelIndex v.RepType]?
    with _ | (_ | vl)
  · have := List.getElem?_eq_none_iff.mp hs
    omega
  · simp only [Topology.RegisterVolumeLayout, Topology.GetVolumeLayout, Topology.slotOrNew,
      registerSlot, hs, List.set_set]
  · simp only [Topology.RegisterVolumeLayout, Topology.GetVolumeLayout, Topology.slotOrNew,
      registerSlot, hs, List.set_set]

theorem registerSlot_length {VL Seq Conf : Type} (env : Env VL Seq Conf) (volumeSizeLimit : Nat)
    (pulse : Int) (h : Heap) (dn : NodeRef) (slots : List (Option VL)) (v : VolumeInfo) :
    (registerSlot env volumeSizeLimit pulse h dn slots v).length = slots.length := by
  simp only [registerSlot, List.length_set]

theorem registerSlot_get {VL Seq Conf : Type} (env : Env VL Seq Conf) (volumeSizeLimit : Nat)
    (pulse : Int) (h : Heap) (dn : NodeRef) (slots : List (Option VL)) (v : VolumeInfo)
    (hidx : env.GetReplicationLevelIndex v.RepType < slots.length) :
    ∃ vl, (registerSlot env volumeSizeLimit pulse h dn slots v)[
        env.GetReplicationLevelIndex v.RepType]?
      = some (some (env.vlRegisterVolume vl h v dn)) := by
  simp only [registerSlot]
  exact ⟨_, List.getElem?_set_self hidx⟩

/-- With every slot index in range the loop returns the registry after the
`AddOrUpdateVolume` calls and the topology whose slots mirror the reports. -/
theorem registerEach_eq {VL Seq Conf : Type} (env : Env VL Seq Conf) (fuel : Nat)
    (dn : NodeRef) (vs : List VolumeInfo) (h : Heap) (t : Topology VL Seq Conf)
    (hidx : ∀ v ∈ vs, env.GetReplicationLevelIndex v.RepType < t.replicaType2VolumeLayout.length) :
    registerEach env fuel dn h t vs
      = some (addAll fuel h dn vs,
              { t with replicaType2VolumeLayout :=
                         mirrorReports env fuel dn t.volumeSizeLimit t.pulse h
                           t.replicaType2VolumeLayout vs }) := by
  induction vs generalizing h t with
  | nil => rfl
  | cons v vs ih =>
    have h1 := RegisterVolumeLayout_eq env (DataNode.AddOrUpdateVolume fuel h dn v) t v dn
      (hidx v (List.mem_cons_self _ _))
    simp only [registerEach, h1]
    rw [ih]
    · rfl
    · intro x hx
      simp only [registerSlot_length]
      exact hidx x (List.mem_cons_of_mem _ hx)

theorem mirrorReports_length {VL Seq Conf : Type} (env : Env VL Seq Conf) (fuel : Nat)
    (dn : NodeRef) (volumeSizeLimit : Nat) (pulse : Int) (vs : List VolumeInfo) (h : Heap)
    (slots : List (Option VL)) :
    (mirrorReports env fuel dn volumeSizeLimit pulse h slots vs).length = slots.length := by
  induction vs generalizing h slots with
  | nil => rfl
  | cons v vs ih => simp only [mirrorReports, ih, registerSlot_length]

/-- A slot whose index is the index of no reported policy is left as it was. -/
theorem mirrorReports_other {VL Seq Conf : Type} (env : Env VL Seq Conf) (fuel : Nat)
    (dn : NodeRef) (volumeSizeLimit : Nat) (pulse : Int) (vs : List VolumeInfo) (h : Heap)
    (slots : List (Option VL)) (i : Nat)
    (hi : ∀ v ∈ vs, env.GetReplicationLevelIndex v.RepType ≠ i) :
    (mirrorReports env fuel dn volumeSizeLimit pulse h slots vs)[i]? = slots[i]? := by
  induction vs generalizing h slots with
  | nil => rfl
  | cons v vs ih =>
    simp only [mirrorReports]
    rw [ih _ _ (fun x hx => hi x (List.mem_cons_of_mem _ hx))]
    simp only [registerSlot]
    exact List.getElem?_set_ne (hi v (List.mem_cons_self _ _))

/-- The slot of the policy of every reported volume holds a layout that came out of
`RegisterVolume` with this node and a reported descriptor of that policy. -/
theorem mirrorReports_registered {VL Seq Conf : Type} (env : Env VL Seq Conf) (fuel : Nat)
    (dn : NodeRef) (volumeSizeLimit : Nat) (pulse : Int) (vs : List VolumeInfo) (h : Heap)
    (slots : List (Option VL)) (i : Nat)
    (hi : ∃ x ∈ vs, env.GetReplicationLevelIndex x.RepType = i) (hidx : i < slots.length) :
    ∃ vl hh v', v' ∈ vs ∧ env.GetReplicationLevelIndex v'.RepType = i ∧
      (mirrorReports env fuel dn volumeSizeLimit pulse h slots vs)[i]?
        = some (some (env.vlRegisterVolume vl hh v' dn)) := by
  induction vs generalizing h slots with
  | nil =>
    obtain ⟨x, hx, _⟩ := hi
    cases hx
  | cons v0 vs ih =>
    by_cases hlater : ∃ x ∈ vs, env.GetReplicationLevelIndex x.RepType = i
    · obtain ⟨vl, hh, v', hv', hi', hget⟩ := ih (DataNode.AddOrUpdateVolume fuel h dn v0)
        (registerSlot env volumeSizeLimit pulse (DataNode.AddOrUpdateVolume fuel h dn v0) dn
          slots v0) hlater (by rw [registerSlot_length]; exact hidx)
      exact ⟨vl, hh, v', List.mem_cons_of_mem _ hv', hi', by simp only [mirrorReports]; exact hget⟩
    · have hv0 : env.GetReplicationLevelIndex v0.RepType = i := by
        obtain ⟨x, hx, hxi⟩ := hi
        rcases List.mem_cons.mp hx with h0 | h0
        · rw [← h0]; exact hxi
        · exact absurd ⟨x, h0, hxi⟩ hlater
      obtain ⟨vl, hvl⟩ := registerSlot_get env volumeSizeLimit pulse
        (DataNode.AddOrUpdateVolume fuel h dn v0) dn slots v0 (by rw [hv0]; exact hidx)
      refine ⟨vl, DataNode.AddOrUpdateVolume fuel h dn v0, v0, List.mem_cons_self _ _, hv0, ?_⟩
      simp only [mirrorReports]
      rw [mirrorReports_other env fuel dn volumeSizeLimit pulse vs _ _ _
        (fun x hx hxi => hlater ⟨x, hx, hxi⟩), ← hv0]
      exact hvl

theorem rootOf_mem (fuel : Nat) (h : Heap) (n root : NodeRef)
    (hr : rootOf fuel h n = some root) :
    root ∈ pathToRoot fuel h n ∧ (h.cell root).parent = none := by
  induction fuel generalizing n with
  | zero => cases hr
  | succ fuel ih =>
    rcases hpar : (h.cell n).parent with _ | p
    · simp only [rootOf, hpar, Option.some.injEq] at hr
      subst hr
      exact ⟨by simp [pathToRoot], hpar⟩
    · simp only [rootOf, hpar] at hr
      have := ih p hr
      exact ⟨by simp only [pathToRoot, hpar]; exact List.mem_cons_of_mem _ this.1, this.2⟩

theorem mapGet_ne_none_iff {κ α : Type} [DecidableEq κ] (m : List (κ × α)) (k : κ) :
    mapGet m k ≠ none ↔ k ∈ (m.map Prod.fst).toFinset := by
  induction m with
  | nil => simp [mapGet]
  | cons e m ih =>
    obtain ⟨k0, a0⟩ := e
    by_cases h0 : k0 = k
    · simp [mapGet, h0]
    · have h1 : ¬ k = k0 := fun e => h0 e.symm
      simp only [mapGet, h0, if_false, ih]
      simp [h1]

/-- One call moves the two volume counts of every element of the walk by one when
the id is new and by nothing otherwise. -/
theorem AddOrUpdateVolume_counts_walk (fuel : Nat) (h : Heap) (dn : NodeRef) (v : VolumeInfo)
    (hnd : (pathToRoot fuel h dn).Nodup) (j : NodeRef) (hj : j ∈ pathToRoot fuel h dn) :
    ((DataNode.AddOrUpdateVolume fuel h dn v).cell j).volumeCount
      = (h.cell j).volumeCount + (if mapGet (h.cell dn).volumes v.Id = none then 1 else 0) ∧
    ((DataNode.AddOrUpdateVolume fuel h dn v).cell j).activeVolumeCount
      = (h.cell j).activeVolumeCount
        + (if mapGet (h.cell dn).volumes v.Id = none then 1 else 0) := by
  have hc := putVolume_counters h dn v j
  by_cases hnew : mapGet (h.cell dn).volumes v.Id = none
  · rw [AddOrUpdateVolume_cell_new fuel h dn v hnew hnd, if_pos hj, if_pos hnew]
    exact ⟨by simp [hc.1], by simp [hc.2.1]⟩
  · rw [AddOrUpdateVolume_cell_old fuel h dn v hnew, if_neg hnew]
    exact ⟨by simp [hc.1], by simp [hc.2.1]⟩

/-- A run of calls on a walk that visits no element twice raises the two volume
counts of every element of the walk by the number of ids that were not held. -/
theorem addAll_counts_walk (fuel : Nat) (dn : NodeRef) (vs : List VolumeInfo) (h : Heap)
    (S : Finset VolumeId) (hnd : (pathToRoot fuel h dn).Nodup)
    (hkeys : ∀ i, mapGet (h.cell dn).volumes i ≠ none ↔ i ∈ S) :
    ∀ j ∈ pathToRoot fuel h dn,
      ((addAll fuel h dn vs).cell j).volumeCount
        = (h.cell j).volumeCount
          + (((S ∪ (vs.map VolumeInfo.Id).toFinset).card : Int) - (S.card : Int)) ∧
      ((addAll fuel h dn vs).cell j).activeVolumeCount
        = (h.cell j).activeVolumeCount
          + (((S ∪ (vs.map VolumeInfo.Id).toFinset).card : Int) - (S.card : Int)) := by
  induction vs generalizing h S with
  | nil =>
    intro j _
    simp [addAll]
  | cons v vs ih =>
    intro j hj
    have hpath : pathToRoot fuel (DataNode.AddOrUpdateVolume fuel h dn v) dn
        = pathToRoot fuel h dn :=
      pathToRoot_congr fuel h _ dn (AddOrUpdateVolume_parent fuel h dn v)
    have hkeys1 : ∀ i, mapGet ((DataNode.AddOrUpdateVolume fuel h dn v).cell dn).volumes i ≠ none
        ↔ i ∈ insert v.Id S := by
      intro i
      rw [AddOrUpdateVolume_volumes, if_pos rfl, mapGet_mapSet, Finset.mem_insert]
      by_cases hi : v.Id = i
      · simp [hi]
      · have hi2 : ¬ i = v.Id := fun e => hi e.symm
        simp [hi, hi2, hkeys i]
    have key := ih (DataNode.AddOrUpdateVolume fuel h dn v) (insert v.Id S)
      (by rw [hpath]; exact hnd) hkeys1 j (by rw [hpath]; exact hj)
    have hstep := AddOrUpdateVolume_counts_walk fuel h dn v hnd j hj
    have hS : insert v.Id S ∪ (vs.map VolumeInfo.Id).toFinset
        = S ∪ ((v :: vs).map VolumeInfo.Id).toFinset := by
      ext i
      simp only [Finset.mem_union, Finset.mem_insert, List.mem_toFinset, List.map_cons,
        List.mem_cons]
      tauto
    have hcard : ((insert v.Id S).card : Int)
        = (S.card : Int) + (if mapGet (h.cell dn).volumes v.Id = none then 1 else 0) := by
      by_cases hnew : mapGet (h.cell dn).volumes v.Id = none
      · have hmem : v.Id ∉ S := fun hm => (hkeys v.Id).mpr hm hnew
        rw [if_pos hnew, Finset.card_insert_of_not_mem hmem]
        push_cast
        rfl
      · have hmem : v.Id ∈ S := (hkeys v.Id).mp hnew
        rw [if_neg hnew, Finset.insert_eq_of_mem hmem]
        simp
    have hadd : addAll fuel h dn (v :: vs)
        = addAll fuel (DataNode.AddOrUpdateVolume fuel h dn v) dn vs := rfl
    rw [hadd, key.1, key.2, hstep.1, hstep.2, hS, hcard]
    constructor <;> ring

/-- The first half of `RegisterVolumes`, up to the node: the stale node is
unregistered exactly when `init` holds and `FindDataNode` found one, and the node
is then obtained from the registry that this step left. -/
theorem RegisterVolumes_eq_registerEach {VL Seq Conf : Type} (env : Env VL Seq Conf)
    (fuel : Nat) (h : Heap) (t : Topology VL Seq Conf) (init : Bool)
    (volumeInfos : List VolumeInfo) (ip : String) (port : Int) (publicUrl : String)
    (maxVolumeCount : Int) (dcName rackName : String)
    (h1 : Heap) (dc : NodeRef) (h2 : Heap) (rack : NodeRef) (h3 : Heap)
    (t3 : Topology VL Seq Conf) (h4 : Heap) (dn : NodeRef)
    (hdc : t.GetOrCreateDataCenter h (env.Locate t.configuration ip dcName rackName).1
      = some (h1, dc))
    (hrack : env.GetOrCreateRack h1 dc (env.Locate t.configuration ip dcName rackName).2
      = (h2, rack))
    (hunreg : ∀ d, init = true → env.FindDataNode h2 rack ip port = some d →
      env.UnRegisterDataNode h2 t d = (h3, t3))
    (hkeep : (init = false ∨ env.FindDataNode h2 rack ip port = none) → (h2, t) = (h3, t3))
    (hnode : env.GetOrCreateDataNode h3 rack ip port publicUrl maxVolumeCount = (h4, dn)) :
    t.RegisterVolumes env fuel h init volumeInfos ip port publicUrl maxVolumeCount dcName rackName
      = registerEach env fuel dn h4 t3 volumeInfos := by
  simp only [Topology.RegisterVolumes, hdc, hrack]
  cases init with
  | false =>
    obtain ⟨e1, e2⟩ := Prod.mk.inj (hkeep (Or.inl rfl))
    subst e1 e2
    simp only [hnode]
  | true =>
    cases hf : env.FindDataNode h2 rack ip port with
    | none =>
      obtain ⟨e1, e2⟩ := Prod.mk.inj (hkeep (Or.inr hf))
      subst e1 e2
      simp only [hnode]
    | some d =>
      have hu := hunreg d rfl hf
      simp only [hu, hnode]

/-- C7: `Topology.RegisterVolumes`.  Let `h1, dc` be what `GetOrCreateDataCenter`
returns for the datacenter name of `Configuration.Locate`, `h2, rack` what
`GetOrCreateRack` returns for the rack name, `h3, t3` the state after the node found
at `(ip, port)` in that rack was unregistered, which happens exactly when `init` is
true and `FindDataNode` found a node (otherwise `h3, t3` is `h2, t`), and `h4, dn`
what `GetOrCreateDataNode` returns on `h3`, so after the unregistration.  Let the
walk from `dn` reach the root within the fuel, visiting no element twice, and let
every reported policy index be in range.  Then the call returns.  The registry it
leaves is `h4` after `AddOrUpdateVolume(v)` on `dn` for every reported `v` in order:
the volume map of `dn` holds, for every reported volume id, the last descriptor
reported for that id, and the volume count and the active volume count of `dn` and
of every element up to the root have grown by the number of reported ids that `dn`
did not hold.  The topology it leaves is `t3` with the reports mirrored into the
layout slots: the number of slots is the same, a slot that is the slot of no
reported policy is untouched, the slot of the policy of every reported `v` holds a
layout that came out of `RegisterVolume` with `dn` and a reported descriptor of that
policy, and the slots are those obtained by registering the reports one after the
other, each right after its `AddOrUpdateVolume`. -/
theorem RegisterVolumes_applies_reports {VL Seq Conf : Type} (env : Env VL Seq Conf)
    (fuel : Nat) (h : Heap) (t : Topology VL Seq Conf) (init : Bool)
    (volumeInfos : List VolumeInfo) (ip : String) (port : Int) (publicUrl : String)
    (maxVolumeCount : Int) (dcName rackName : String)
    (h1 : Heap) (dc : NodeRef) (h2 : Heap) (rack : NodeRef) (h3 : Heap)
    (t3 : Topology VL Seq Conf) (h4 : Heap) (dn root : NodeRef)
    (hdc : t.GetOrCreateDataCenter h (env.Locate t.configuration ip dcName rackName).1
      = some (h1, dc))
    (hrack : env.GetOrCreateRack h1 dc (env.Locate t.configuration ip dcName rackName).2
      = (h2, rack))
    (hunreg : ∀ d, init = true → env.FindDataNode h2 rack ip port = some d →
      env.UnRegisterDataNode h2 t d = (h3, t3))
    (hkeep : (init = false ∨ env.FindDataNode h2 rack ip port = none) → (h2, t) = (h3, t3))
    (hnode : env.GetOrCreateDataNode h3 rack ip port publicUrl maxVolumeCount = (h4, dn))
    (hroot : rootOf fuel h4 dn = some root)
    (hnd : (pathToRoot fuel h4 dn).Nodup)
    (hidx : ∀ v ∈ volumeInfos,
      env.GetReplicationLevelIndex v.RepType < t3.replicaType2VolumeLayout.length) :
    ∃ t', t.RegisterVolumes env fuel h init volumeInfos ip port publicUrl maxVolumeCount
          dcName rackName
        = some (addAll fuel h4 dn volumeInfos, t') ∧
      registerEach env fuel dn h4 t3 volumeInfos = some (addAll fuel h4 dn volumeInfos, t') ∧
      (∀ (hh : Heap) (tt : Topology VL Seq Conf) (v : VolumeInfo) (rest : List VolumeInfo),
        registerEach env fuel dn hh tt (v :: rest)
          = (tt.RegisterVolumeLayout env (DataNode.AddOrUpdateVolume fuel hh dn v) v dn).bind
              (fun t1 => registerEach env fuel dn (DataNode.AddOrUpdateVolume fuel hh dn v) t1
                rest)) ∧
      (∀ (hh : Heap) (tt : Topology VL Seq Conf) (v : VolumeInfo),
        env.GetReplicationLevelIndex v.RepType < tt.replicaType2VolumeLayout.length →
        ∃ vl t1, tt.slotOrNew env v.RepType = some vl ∧
          tt.RegisterVolumeLayout env hh v dn = some t1 ∧
          t1.replicaType2VolumeLayout
            = tt.replicaType2VolumeLayout.set (env.GetReplicationLevelIndex v.RepType)
                (some (env.vlRegisterVolume vl hh v dn))) ∧
      (∀ v ∈ volumeInfos,
        lastReport volumeInfos v.Id ≠ none ∧
        mapGet ((addAll fuel h4 dn volumeInfos).cell dn).volumes v.Id
          = lastReport volumeInfos v.Id) ∧
      (t'.replicaType2VolumeLayout
          = mirrorReports env fuel dn t3.volumeSizeLimit t3.pulse h4 t3.replicaType2VolumeLayout
              volumeInfos ∧
        t'.self = t3.self ∧ t'.pulse = t3.pulse ∧ t'.volumeSizeLimit = t3.volumeSizeLimit ∧
        t'.sequence = t3.sequence ∧ t'.configuration = t3.configuration) ∧
      t'.replicaType2VolumeLayout.length = t3.replicaType2VolumeLayout.length ∧
      (∀ i : Nat, (∀ v ∈ volumeInfos, env.GetReplicationLevelIndex v.RepType ≠ i) →
        t'.replicaType2VolumeLayout[i]? = t3.replicaType2VolumeLayout[i]?) ∧
      (∀ v ∈ volumeInfos, ∃ vl hh v', v' ∈ volumeInfos ∧
        env.GetReplicationLevelIndex v'.RepType = env.GetReplicationLevelIndex v.RepType ∧
        t'.replicaType2VolumeLayout[env.GetReplicationLevelIndex v.RepType]?
          = some (some (env.vlRegisterVolume vl hh v' dn))) ∧
      (root ∈ pathToRoot fuel h4 dn ∧ dn ∈ pathToRoot fuel h4 dn ∧
        (h4.cell root).parent = none) ∧
      (∀ j ∈ pathToRoot fuel h4 dn,
        ((addAll fuel h4 dn volumeInfos).cell j).volumeCount
          = (h4.cell j).volumeCount
            + ((((heldIds h4 dn) ∪ (volumeInfos.map VolumeInfo.Id).toFinset).card : Int)
                - ((heldIds h4 dn).card : Int)) ∧
        ((addAll fuel h4 dn volumeInfos).cell j).activeVolumeCount
          = (h4.cell j).activeVolumeCount
            + ((((heldIds h4 dn) ∪ (volumeInfos.map VolumeInfo.Id).toFinset).card : Int)
                - ((heldIds h4 dn).card : Int))) := by
  have heq := registerEach_eq env fuel dn volumeInfos h4 t3 hidx
  have hrm := rootOf_mem fuel h4 dn root hroot
  have hdn : dn ∈ pathToRoot fuel h4 dn := by
    cases fuel with
    | zero => cases hroot
    | succ f => simp [pathToRoot]
  refine ⟨_, ?_, heq, ?_, ?_, ?_, ⟨rfl, rfl, rfl, rfl, rfl, rfl⟩, ?_, ?_, ?_,
    ⟨hrm.1, hdn, hrm.2⟩, ?_⟩
  · rw [RegisterVolumes_eq_registerEach env fuel h t init volumeInfos ip port publicUrl
      maxVolumeCount dcName rackName h1 dc h2 rack h3 t3 h4 dn hdc hrack hunreg hkeep hnode]
    exact heq
  · intro hh tt v rest
    simp only [registerEach]
    cases tt.RegisterVolumeLayout env (DataNode.AddOrUpdateVolume fuel hh dn v) v dn <;> rfl
  · intro hh tt v hlt
    exact RegisterVolumeLayout_some env hh tt v dn hlt
  · intro v hv
    have hne := lastReport_ne_none volumeInfos v hv
    refine ⟨hne, ?_⟩
    rw [addAll_volumes]
    obtain ⟨x, hx⟩ := Option.ne_none_iff_exists'.mp hne
    rw [hx]
    rfl
  · exact mirrorReports_length env fuel dn t3.volumeSizeLimit t3.pulse volumeInfos h4 _
  · intro i hi
    exact mirrorReports_other env fuel dn t3.volumeSizeLimit t3.pulse volumeInfos h4 _ i hi
  · intro v hv
    exact mirrorReports_registered env fuel dn t3.volumeSizeLimit t3.pulse volumeInfos h4 _ _
      ⟨v, hv, rfl⟩ (hidx v hv)
  · exact addAll_counts_walk fuel dn volumeInfos h4 (heldIds h4 dn) hnd
      (fun i => mapGet_ne_none_iff _ i)

/-- A full report (`init` true) from the address of the storage node of the sample
tree, which held the stale volume 9: the node is found and unregistered first (its
counts go back to 0, volume 9 leaves its map and it leaves the replica set of
volume 9), then volume 5 is reported twice and volume 7 once.  The call returns;
the map of the node holds the last descriptor of 5 and of 7 and no volume 9, the
volume count is 2 at the node and at the root, and the first layout lists node 3
once under 5 and under 7. -/
theorem RegisterVolumes_applies_reports_witness :
    clearingEnv.FindDataNode staleTree 2 "10.0.0.1" 8080 = some 3 ∧
    ((staleTree.cell 3).volumes, (staleTree.cell 3).volumeCount, (staleTree.cell 0).volumeCount)
      = ([(9, ⟨9, 0, 0⟩)], 1, 1) ∧
    (staleTopology.RegisterVolumes clearingEnv 4 staleTree true
          [⟨5, 0, 0⟩, ⟨7, 10, 0⟩, ⟨5, 20, 0⟩] "10.0.0.1" 8080 "pub" 7 "dc1" "rackA").map
        (fun x => ((x.1.cell 3).volumes, (x.1.cell 3).volumeCount, (x.1.cell 0).volumeCount,
          (x.1.cell 0).activeVolumeCount, x.2.replicaType2VolumeLayout))
      = some ([(5, ⟨5, 20, 0⟩), (7, ⟨7, 10, 0⟩)], 2, 2, 2,
          [some [(9, []), (5, [3]), (7, [3])], none, none]) ∧
    ∃ t', staleTopology.RegisterVolumes clearingEnv 4 staleTree true
          [⟨5, 0, 0⟩, ⟨7, 10, 0⟩, ⟨5, 20, 0⟩] "10.0.0.1" 8080 "pub" 7 "dc1" "rackA"
        = some (addAll 4 (clearingEnv.UnRegisterDataNode staleTree staleTopology 3).1 3
            [⟨5, 0, 0⟩, ⟨7, 10, 0⟩, ⟨5, 20, 0⟩], t') ∧
      t'.replicaType2VolumeLayout
        = mirrorReports clearingEnv 4 3 1024 5
            (clearingEnv.UnRegisterDataNode staleTree staleTopology 3).1
            (clearingEnv.UnRegisterDataNode staleTree staleTopology 3).2.replicaType2VolumeLayout
            [⟨5, 0, 0⟩, ⟨7, 10, 0⟩, ⟨5, 20, 0⟩] ∧
      (∀ v ∈ ([⟨5, 0, 0⟩, ⟨7, 10, 0⟩, ⟨5, 20, 0⟩] : List VolumeInfo),
        lastReport [⟨5, 0, 0⟩, ⟨7, 10, 0⟩, ⟨5, 20, 0⟩] v.Id ≠ none ∧
        mapGet ((addAll 4 (clearingEnv.UnRegisterDataNode staleTree staleTopology 3).1 3
            [⟨5, 0, 0⟩, ⟨7, 10, 0⟩, ⟨5, 20, 0⟩]).cell 3).volumes v.Id
          = lastReport [⟨5, 0, 0⟩, ⟨7, 10, 0⟩, ⟨5, 20, 0⟩] v.Id) :=
  ⟨by decide, by decide, rfl,
    (RegisterVolumes_applies_reports clearingEnv 4 staleTree staleTopology true
      [⟨5, 0, 0⟩, ⟨7, 10, 0⟩, ⟨5, 20, 0⟩] "10.0.0.1" 8080 "pub" 7 "dc1" "rackA"
      staleTree 1 staleTree 2 (clearingEnv.UnRegisterDataNode staleTree staleTopology 3).1
      (clearingEnv.UnRegisterDataNode staleTree staleTopology 3).2
      (clearingEnv.UnRegisterDataNode staleTree staleTopology 3).1 3 0
      rfl rfl
      (fun d _ hd => by
        have hfound : clearingEnv.FindDataNode staleTree 2 "10.0.0.1" 8080 = some 3 := by
          decide
        rw [hfound] at hd
        cases hd
        rfl)
      (fun hk => by
        have hfound : clearingEnv.FindDataNode staleTree 2 "10.0.0.1" 8080 = some 3 := by
          decide
        rcases hk with hk | hk
        · cases hk
        · rw [hfound] at hk
          cases hk)
      rfl (by decide) (by decide) (by decide)).imp
      (fun _ hx => ⟨hx.1, hx.2.2.2.2.2.1.1, hx.2.2.2.2.1⟩)⟩

end Weedfs
